import Mathlib

/-!
Shallow embedding of the https-everywhere-lib-core library (the rule matcher,
the rewrite engine and the update pipeline) together with proofs about the
properties its specification states.

External collaborators (the regex engine, the URL parser, the HTTP transport,
the JSON parser, RSA signature verification, gzip, SHA-256) are out of the
library's scope and are modelled as explicit function parameters ("oracles");
everything the library itself computes is embedded concretely, following the
source files src/rulesets.rs, src/rewriter.rs, src/updater.rs, src/settings.rs
and src/storage.rs.
-/

namespace HttpsEverywhere

/-! ## String helpers

Lean's built-in `String.splitOn`, `startsWith`, `endsWith` and `trim` are
implemented with byte-position loops that the kernel cannot evaluate, so the
corresponding operations used by the Rust source (`str::split('.')`,
`starts_with`, `ends_with`, `trim`, `trim_end_matches('.')`, substring search
`find("..")`) are embedded here as structural functions on the character list
of a string.  For the ASCII patterns the source uses, character-level and
byte-level behaviour agree.
-/

/-- Is the first character list a prefix of the second? -/
def startsList : List Char → List Char → Bool
  | [], _ => true
  | _, [] => false
  | a :: as, b :: bs => if a = b then startsList as bs else false

/-- Model of Rust `str::starts_with` for a literal pattern. -/
def strStartsWith (s pat : String) : Bool := startsList pat.data s.data

/-- Model of Rust `str::ends_with` for a literal pattern. -/
def strEndsWith (s pat : String) : Bool := startsList pat.data.reverse s.data.reverse

/-- Does the pattern occur as a contiguous substring of `s`
(model of Rust `str::find(pat).is_some()`)? -/
def strContainsSub (s pat : String) : Bool :=
  (List.range (s.data.length + 1)).any (fun i => startsList pat.data (s.data.drop i))

/-- Helper for `splitDots`: accumulates the current segment (reversed). -/
def splitDotsAux : List Char → List Char → List String
  | [], acc => [String.mk acc.reverse]
  | c :: rest, acc =>
      if c = '.' then String.mk acc.reverse :: splitDotsAux rest []
      else splitDotsAux rest (c :: acc)

/-- Model of Rust `host.split('.').collect::<Vec<_>>()`:
splitting an empty string yields `[""]`, and empty segments are kept. -/
def splitDots (s : String) : List String := splitDotsAux s.data []

/-- Model of Rust `str::trim_end_matches('.')`: drop every trailing dot. -/
def trimTrailingDots (s : String) : String :=
  String.mk (s.data.reverse.dropWhile (fun c => c = '.')).reverse

/-- Model of Rust `str::trim` (whitespace at both ends). -/
def strTrim (s : String) : String :=
  String.mk (((s.data.dropWhile Char.isWhitespace).reverse.dropWhile Char.isWhitespace).reverse)

/-! ## Association lists

The source keeps its maps in `BTreeMap`/`HashMap` values (the ruleset index,
the storage backend).  Keys are unique by construction, and only lookup,
replacing insertion and append-to-entry are used, so a first-match
association list is an adequate embedding. -/

/-- First-match lookup in an association list. -/
def lookupA {α : Type} : List (String × α) → String → Option α
  | [], _ => none
  | (k, v) :: rest, k' => if k' = k then some v else lookupA rest k'

/-- Replacing insertion (model of `HashMap::insert` / `BTreeMap::insert`). -/
def updA {α : Type} : List (String × α) → String → α → List (String × α)
  | [], k, v => [(k, v)]
  | (k', v') :: rest, k, v =>
      if k' = k then (k, v) :: rest else (k', v') :: updA rest k v

theorem lookupA_updA {α : Type} (l : List (String × α)) (k k' : String) (v : α) :
    lookupA (updA l k v) k' = if k' = k then some v else lookupA l k' := by
  induction l with
  | nil => simp [updA, lookupA]
  | cons p rest ih =>
    obtain ⟨ka, va⟩ := p
    by_cases hka : ka = k
    · subst hka
      by_cases hk' : k' = ka <;> simp [updA, lookupA, hk']
    · by_cases hk' : k' = ka
      · have hne : ¬ k' = k := by rw [hk']; exact hka
        simp [updA, lookupA, hka, hk', hne]
      · simp [updA, lookupA, hka, hk', ih]

/-! ## The regex engine interface

The library compiles pattern strings with the external `regex` crate and only
ever calls `is_match` and `replace_all` on them.  Both are modelled as an
abstract engine; theorems quantify over every engine, and witnesses
instantiate it with small concrete functions that agree with the real engine
on the inputs they exercise.  (Compilation failures of invalid patterns,
which panic in the source, are outside the modelled behaviour.) -/

structure RegexEngine where
  isMatch : String → String → Bool
  replaceAll : String → String → String → String

/-! ## Rules and rulesets (src/rulesets.rs) -/

/-- A Rule is used to rewrite URLs from some regular expression to some string
(src/rulesets.rs lines 64-87). -/
inductive Rule where
  | trivial : Rule
  | nonTrivial : String → String → Rule
deriving DecidableEq

/-- `Rule::new`: the canonical pair compresses to `Trivial`. -/
def Rule.new (fromRegex toStr : String) : Rule :=
  if fromRegex = "^http:" ∧ toStr = "https:" then Rule.trivial
  else Rule.nonTrivial fromRegex toStr

/-- A CookieRule secures cookies matching a host and a name regex
(src/rulesets.rs lines 90-111). -/
structure CookieRule where
  host_regex : String
  name_regex : String
deriving DecidableEq

/-- A RuleSet is a grouping of rules acting on some target
(src/rulesets.rs lines 114-125); the shared `Arc` around the scope string is
dropped in the embedding. -/
structure RuleSet where
  name : String
  rules : List Rule
  exclusions : Option String
  cookierules : Option (List CookieRule)
  active : Bool
  default_state : Bool
  scope : Option String
  note : Option String
deriving DecidableEq

/-- `RuleSet::new` (src/rulesets.rs lines 135-146). -/
def RuleSet.new (name : String) (scope : Option String) : RuleSet :=
  { name := name, rules := [], exclusions := none, cookierules := none,
    active := true, default_state := true, scope := scope, note := none }

/-- The rule loop inside `RuleSet::apply` (src/rulesets.rs lines 213-226):
a `Trivial` rule returns unconditionally with `^http:` replaced (the
precompiled `TRIVIAL_REGEX`); a `NonTrivial` rule returns only if the
replacement changed the URL. -/
def applyRules (eng : RegexEngine) : List Rule → String → Option String
  | [], _ => none
  | Rule.trivial :: _, url => some (eng.replaceAll "^http:" url "https:")
  | Rule.nonTrivial fromRegex toStr :: rest, url =>
      let returl := eng.replaceAll fromRegex url toStr
      if returl ≠ url then some returl else applyRules eng rest url

/-- `RuleSet::apply` (src/rulesets.rs lines 203-228). -/
def RuleSet.apply (eng : RegexEngine) (rs : RuleSet) (url : String) : Option String :=
  match rs.exclusions with
  | some e => if eng.isMatch e url then none else applyRules eng rs.rules url
  | none => applyRules eng rs.rules url

/-- The ruleset index: target FQDN to the rulesets stored under it
(src/rulesets.rs line 234, `BTreeMap<String, Vec<Arc<RuleSet>>>`). -/
def RuleSets := List (String × List RuleSet)

/-- `RuleSets::try_add` (src/rulesets.rs lines 401-409): append every ruleset
stored under `host` to the result vector. -/
def tryAdd (m : RuleSets) (results : List RuleSet) (host : String) : List RuleSet :=
  match lookupA m host with
  | some rulesets => results ++ rulesets
  | none => results

/-- `RuleSets::potentially_applicable` (src/rulesets.rs lines 365-398):
exact match, the RFC 1035 well-formedness gate, one right-wildcard lookup and
the left-wildcard lookups (note the source slices the label vector from the
wildcard index on). -/
def potentially_applicable (m : RuleSets) (host : String) : List RuleSet :=
  let results := tryAdd m [] host
  if host.utf8ByteSize = 0 ∨ 255 < host.utf8ByteSize ∨ strContainsSub host ".." then
    results
  else
    let segmented := splitDots host
    let lastIndex := segmented.length - 1
    let results := tryAdd m results (String.intercalate "." (segmented.set lastIndex "*"))
    (List.range (segmented.length - 1)).foldl
      (fun acc index =>
        tryAdd m acc (String.intercalate "." (((segmented.set index "*").drop index))))
      results

/-! ## JSON values and ruleset ingestion (src/rulesets.rs lines 264-357)

`serde_json::Value` is embedded as a small inductive; the external parser
(`serde_json::from_str`) is an oracle of type `String → Option Json`.
Numbers are restricted to integers, which covers every field the library
reads with an `is_i64`/`is_u64` guard. -/

inductive Json where
  | null : Json
  | jbool : Bool → Json
  | jnum : Int → Json
  | jstr : String → Json
  | jarr : List Json → Json
  | jobj : List (String × Json) → Json

/-- `serde_json::Map::get` on an object's field list. -/
def jget (fields : List (String × Json)) (key : String) : Option Json :=
  lookupA fields key

/-- `RuleSet::add_rules` (src/rulesets.rs lines 149-163): non-object entries
are skipped, missing or non-string `from`/`to` become the empty string. -/
def rulesFromJson (rules : List Json) : List Rule :=
  rules.foldl
    (fun acc r =>
      match r with
      | Json.jobj fields =>
          let fr := match jget fields "from" with
            | some (Json.jstr s) => s
            | _ => ""
          let toStr := match jget fields "to" with
            | some (Json.jstr s) => s
            | _ => ""
          acc ++ [Rule.new fr toStr]
      | _ => acc) []

/-- `RuleSet::add_exclusions` (src/rulesets.rs lines 166-175): the string
entries joined with `|` into one alternation regex. -/
def exclusionsFromJson (exclusions : List Json) : String :=
  String.intercalate "|"
    (exclusions.foldl
      (fun acc e =>
        match e with
        | Json.jstr s => acc ++ [s]
        | _ => acc) [])

/-- `RuleSet::add_cookierules` (src/rulesets.rs lines 178-200). -/
def cookierulesFromJson (cookierules : List Json) : List CookieRule :=
  cookierules.foldl
    (fun acc c =>
      match c with
      | Json.jobj fields =>
          let host := match jget fields "host" with
            | some (Json.jstr s) => s
            | _ => ""
          let name := match jget fields "name" with
            | some (Json.jstr s) => s
            | _ => ""
          acc ++ [CookieRule.mk host name]
      | _ => acc) []

/-- `BTreeMap::get_mut`-push-or-`insert` on the target index
(src/rulesets.rs lines 337-344). -/
def insertTarget : RuleSets → String → RuleSet → RuleSets
  | [], t, rs => [(t, [rs])]
  | (k, v) :: rest, t, rs =>
      if k = t then (k, v ++ [rs]) :: rest
      else (k, v) :: insertTarget rest t rs

/-- The `add_one_from_json` closure of `RuleSets::add_all_from_serde_value`
(src/rulesets.rs lines 274-350). -/
def addOneFromJson (enableMixed : Bool) (activeStates : List (String × Bool))
    (scope : Option String) (m : RuleSets) (ruleset : Json) : RuleSets :=
  match ruleset with
  | Json.jobj fields =>
      let s1 : Bool × String := match jget fields "default_off" with
        | some (Json.jstr default_off) =>
            ((if default_off ≠ "user rule" then false else true), default_off ++ "\n")
        | _ => (true, "")
      let s2 : Bool × String := match jget fields "platform" with
        | some (Json.jstr platform) =>
            ((if platform = "mixedcontent" then (if ¬ enableMixed then false else s1.1)
              else false),
             s1.2 ++ "Platform(s): " ++ platform ++ "\n")
        | _ => s1
      match jget fields "name" with
      | some (Json.jstr name) =>
          let active := match lookupA activeStates name with
            | some false => false
            | some true => true
            | none => s2.1
          let rs : RuleSet :=
            { name := name,
              rules := match jget fields "rule" with
                | some (Json.jarr rules) => rulesFromJson rules
                | _ => [],
              exclusions := match jget fields "exclusion" with
                | some (Json.jarr exclusions) => some (exclusionsFromJson exclusions)
                | _ => none,
              cookierules := match jget fields "securecookie" with
                | some (Json.jarr securecookies) => some (cookierulesFromJson securecookies)
                | _ => none,
              active := active,
              default_state := s2.1,
              scope := scope,
              note := if s2.2.length = 0 then none else some (strTrim s2.2) }
          match jget fields "target" with
          | some (Json.jarr targets) =>
              targets.foldl
                (fun m t =>
                  match t with
                  | Json.jstr t => insertTarget m t rs
                  | _ => m) m
          | _ => m
      | _ => m
  | _ => m

/-- `RuleSets::add_all_from_serde_value` (src/rulesets.rs lines 271-357):
non-array input adds nothing. -/
def addAllFromSerdeValue (m : RuleSets) (rulesets : Json) (enableMixed : Bool)
    (activeStates : List (String × Bool)) (scope : Option String) : RuleSets :=
  match rulesets with
  | Json.jarr rulesets =>
      rulesets.foldl (fun m rs => addOneFromJson enableMixed activeStates scope m rs) m
  | _ => m

/-- `ENABLE_MIXED_RULESETS` (src/rulesets.rs line 19). -/
def ENABLE_MIXED_RULESETS : Bool := true

/-- `RULE_ACTIVE_STATES` (src/rulesets.rs lines 22-24): an empty map. -/
def RULE_ACTIVE_STATES : List (String × Bool) := []

/-! ## URLs (the `url` crate, restricted to what the rewriter uses)

The rewriter parses, reads `scheme`, `host_str`, `username`, `password`,
serialises with `as_str`, and sets username/password.  URLs are embedded as a
record; serialisation follows the crate's form for host-bearing URLs, and
`set_username`/`set_password` fail (the source unwraps, i.e. panics) exactly
when the URL has no host, matching the crate's documented error condition.
The parser itself stays an oracle `String → Option Url`. -/

structure Url where
  scheme : String
  username : String
  password : Option String
  host : Option String
  tail : String
deriving DecidableEq

/-- The userinfo portion of a URL: `username[:password]`. -/
def Url.userinfo (u : Url) : String :=
  u.username ++ (match u.password with
    | some p => ":" ++ p
    | none => "")

/-- `Url::as_str` (serialisation). -/
def Url.asStr (u : Url) : String :=
  match u.host with
  | some h =>
      u.scheme ++ "://" ++
        (if u.username = "" ∧ u.password = none then "" else u.userinfo ++ "@") ++
        h ++ u.tail
  | none => u.scheme ++ ":" ++ u.tail

/-- `Url::set_username` followed by `Url::set_password` as used to strip or
restore credentials; `none` models the `Err` that the source unwraps. -/
def Url.setCreds (u : Url) (username : String) (password : Option String) : Option Url :=
  match u.host with
  | some _ => some { u with username := username, password := password }
  | none => none

/-! ## The rewriter (src/rewriter.rs) -/

/-- `RewriteAction` (src/rewriter.rs lines 16-21). -/
inductive RewriteAction where
  | CancelRequest : RewriteAction
  | NoOp : RewriteAction
  | RewriteUrl : String → RewriteAction
  | RedirectLoopWarning : RewriteAction
deriving DecidableEq

/-- The rewriter's own mutable state: the rewrite counter and the rewrite
history ring buffer (most recent first), src/rewriter.rs lines 29-31.  The
shared `rulesets` and `settings` handles are passed separately as a
`RewriteCtx`. -/
structure RewriterState where
  rewrite_history : List (String × RewriteAction)
  rewrite_count : Nat
deriving DecidableEq

/-- Everything `rewrite_url` reads but does not write: the regex engine, the
URL parser, the two settings flags as stored (`Settings::
get_https_everywhere_enabled_or(true)` and `get_ease_mode_enabled_or(false)`
read `Option Bool` values from storage and default them), and the ruleset
index. -/
structure RewriteCtx where
  eng : RegexEngine
  parse : String → Option Url
  globalEnabled : Option Bool
  httpNowhereOn : Option Bool
  rulesets : RuleSets

/-- `Rewriter::record_history` (src/rewriter.rs lines 157-167): truncate the
ring buffer to 14, push the new `(url, action)` pair to the front, and
upgrade to `RedirectLoopWarning` if the pair now occurs at least 8 times. -/
def record_history (st : RewriterState) (url : Url) (action : RewriteAction) :
    RewriteAction × RewriterState :=
  if 8 ≤ (((url.asStr, action) :: st.rewrite_history.take 14).filter
      (fun p => p.1 = url.asStr ∧ p.2 = action)).length then
    (RewriteAction.RedirectLoopWarning,
     { st with rewrite_history := (url.asStr, action) :: st.rewrite_history.take 14 })
  else
    (action,
     { st with rewrite_history := (url.asStr, action) :: st.rewrite_history.take 14 })

/-- The hostname derivation (src/rewriter.rs lines 64-68): strip trailing
dots; an empty result becomes `"."`. -/
def hostnameOf (h : String) : String :=
  let t := trimTrailingDots h
  if t = "" then "." else t

/-- The EASE-mode exemption list (src/rewriter.rs lines 75-80). -/
def exemptHost (eng : RegexEngine) (hostname : String) : Bool :=
  strEndsWith hostname ".onion" ||
  hostname = "localhost" ||
  strEndsWith hostname ".localhost" ||
  eng.isMatch "^127(\\.[0-9]\x7b1,3\x7d)\x7b3\x7d$" hostname ||
  hostname = "0.0.0.0" ||
  hostname = "[::1]"

/-- The `should_cancel` computation (src/rewriter.rs lines 70-84), given that
EASE mode is on. -/
def shouldCancelCore (ctx : RewriteCtx) (url0 : Url) (hostname : String) : Bool :=
  (url0.scheme = "http" || url0.scheme = "ftp") && ! exemptHost ctx.eng hostname

/-- One iteration of the candidate loop (src/rewriter.rs lines 95-114): scope
gate, then `apply_if_active`; a produced rewrite string is reparsed with
`Url::parse(..).unwrap()` (outer `none` models that unwrap panicking). -/
def candidateStep (ctx : RewriteCtx) (urlStr : String)
    (acc : Option (Option Url)) (rs : RuleSet) : Option (Option Url) :=
  match acc with
  | none => none
  | some cur =>
      let gate := match rs.scope with
        | some scope => ctx.eng.isMatch scope urlStr
        | none => true
      if gate then
        if rs.active && cur.isNone then
          match RuleSet.apply ctx.eng rs urlStr with
          | none => some none
          | some s =>
              match ctx.parse s with
              | some nu => some (some nu)
              | none => none
        else some cur
      else some cur

/-- The full candidate enumeration over `potentially_applicable`. -/
def computeNewUrl (ctx : RewriteCtx) (hostname urlStr : String) : Option (Option Url) :=
  (potentially_applicable ctx.rulesets hostname).foldl (candidateStep ctx urlStr) (some none)

/-- Credential stripping, rule application and credential restoration
(src/rewriter.rs lines 85-127) for a URL that has a host `h`.  Returns
`(url, new_url)` as they stand after line 127: the local `url` variable and
the produced rewrite; `none` models a panic (reparse or `set_username`/
`set_password` unwrap). -/
def rewriteAttempt (ctx : RewriteCtx) (url0 : Url) (h : String) : Option (Url × Option Url) :=
  let hostname := hostnameOf h
  let usingCreds := !(url0.username = "") || url0.password.isSome
  let url1 := if usingCreds then { url0 with username := "", password := none } else url0
  match computeNewUrl ctx hostname url1.asStr with
  | none => none
  | some newUrl =>
      if usingCreds then
        match newUrl with
        | none =>
            match url1.setCreds url0.username url0.password with
            | some u2 => some (u2, none)
            | none => none
        | some nu =>
            match nu.setCreds url0.username url0.password with
            | some nu2 => some (url1, some nu2)
            | none => none
      else some (url1, newUrl)

/-- Does this string begin with an insecure scheme (src/rewriter.rs lines
135-138)? -/
def insecureStr (s : String) : Bool :=
  strStartsWith s "http:" || strStartsWith s "ftp:"

/-- The decision part of `Rewriter::rewrite_url` after a successful parse:
which `(url, action, counter increment)` reaches `record_history`
(src/rewriter.rs lines 63-152).  `none` models a panic. -/
def pendingEntryHost (ctx : RewriteCtx) (url0 : Url) (h : String) :
    Option (Url × RewriteAction × Nat) :=
  match rewriteAttempt ctx url0 h with
  | none => none
  | some (url2, newUrl2) =>
      if (ctx.httpNowhereOn.getD false && shouldCancelCore ctx url0 (hostnameOf h))
          && newUrl2.isNone then
        some (url2, RewriteAction.CancelRequest, 0)
      else if ctx.httpNowhereOn.getD false && (match newUrl2 with
          | some nu => insecureStr nu.asStr
          | none => false) then
        some (url2, RewriteAction.CancelRequest, 0)
      else
        match newUrl2 with
        | some nu => some (url2, RewriteAction.RewriteUrl nu.asStr, 1)
        | none => some (url2, RewriteAction.NoOp, 0)

def pendingEntry (ctx : RewriteCtx) (url0 : Url) : Option (Url × RewriteAction × Nat) :=
  match url0.host with
  | none => some (url0, RewriteAction.NoOp, 0)
  | some h => pendingEntryHost ctx url0 h

/-- `Rewriter::rewrite_url` (src/rewriter.rs lines 57-153).  The outer
`Option` models panics; `Except Unit` models the `Result` (the parse error
payload is collapsed to `Unit`).  Every path except the globally-disabled
early return and the parse error goes through `record_history`. -/
def rewrite_url (ctx : RewriteCtx) (st : RewriterState) (urlStr : String) :
    Option (Except Unit RewriteAction × RewriterState) :=
  if ctx.globalEnabled.getD true = false then
    some (Except.ok RewriteAction.NoOp, st)
  else
    match ctx.parse urlStr with
    | none => some (Except.error (), st)
    | some url0 =>
        match pendingEntry ctx url0 with
        | none => none
        | some (u2, a, bump) =>
            let r := record_history st u2 a
            some (Except.ok r.1,
                  { r.2 with rewrite_count := r.2.rewrite_count + bump })

/-- State evolution of one `rewrite_url` call (result discarded). -/
def iterCall (ctx : RewriteCtx) (urlStr : String) (st : RewriterState) :
    Option RewriterState :=
  (rewrite_url ctx st urlStr).map (fun r => r.2)

/-- State evolution of `n` consecutive `rewrite_url` calls on the same URL. -/
def iterCallN (ctx : RewriteCtx) (urlStr : String) : Nat → RewriterState → Option RewriterState
  | 0, st => some st
  | n + 1, st =>
      match iterCall ctx urlStr st with
      | some st' => iterCallN ctx urlStr n st'
      | none => none

/-! ## Storage (src/storage.rs)

The `Storage` trait is a typed key-value store with separate int, string,
bool and byte namespaces (the reference implementation `WorkingTempStorage`
keeps separate `HashMap`s).  Bytes are `List Nat`. -/

structure Storage where
  ints : List (String × Nat)
  strings : List (String × String)
  bools : List (String × Bool)
  bytesKV : List (String × List Nat)
deriving DecidableEq

def Storage.getInt (st : Storage) (k : String) : Option Nat := lookupA st.ints k
def Storage.setInt (st : Storage) (k : String) (v : Nat) : Storage :=
  { st with ints := updA st.ints k v }
def Storage.getString (st : Storage) (k : String) : Option String := lookupA st.strings k
def Storage.setString (st : Storage) (k : String) (v : String) : Storage :=
  { st with strings := updA st.strings k v }
def Storage.getBytes (st : Storage) (k : String) : Option (List Nat) := lookupA st.bytesKV k
def Storage.setBytes (st : Storage) (k : String) (v : List Nat) : Storage :=
  { st with bytesKV := updA st.bytesKV k v }

/-! ## Update channels (src/updater/update_channels.rs) -/

inductive UpdateChannelFormat where
  | rulesets : UpdateChannelFormat
  | bloom : UpdateChannelFormat
deriving DecidableEq

/-- An update channel.  The RSA public key and the update path are only ever
consumed by the external HTTP and OpenSSL calls, which are oracles keyed by
the whole channel value, so those two fields are not embedded. -/
structure UpdateChannel where
  name : String
  scope : Option String
  replaces_default_rulesets : Bool
  format : UpdateChannelFormat

/-! ## The updater (src/updater.rs)

External effects as oracles: the clock, the three HTTP fetch groups (each
collapsed to `Option` of what the source extracts from 2xx responses, with
`none` covering transport errors, non-2xx, non-UTF-8 and unparsable bodies),
RSA-PSS/SHA-256 verification (`none` = verifier error, `some b` = verdict),
gunzip, the JSON parse of the bundle (collapsed to the `timestamp` field the
source inspects), the bloom metadata parse and SHA-256. -/

/-- The fields `verify_and_store_new_bloom` extracts from the metadata JSON;
each `none` models the corresponding parse/validation failure. -/
structure BloomMeta where
  timestampField : Option Int
  sha256sum : Option (List Nat)
  bitmap_bits : Option Nat
  k_num : Option Nat
  sip_keys : Option (Nat × Nat × Nat × Nat)

structure UpdateEnv where
  now : Nat
  remoteTimestamp : UpdateChannel → Option Nat
  fetchRulesets : UpdateChannel → Nat → Option (List Nat × List Nat)
  fetchBloom : UpdateChannel → Nat → Option (List Nat × List Nat × List Nat)
  verify : UpdateChannel → List Nat → List Nat → Option Bool
  gunzipToString : List Nat → Option String
  jsonTimestamp : String → Option Int
  parseBloomMeta : List Nat → Option BloomMeta
  sha256 : List Nat → List Nat

/-- `Updater::check_for_new_updates` (src/updater.rs lines 96-128): probe the
channel's timestamp endpoint, compare to the stored `uc-timestamp`. -/
def check_for_new_updates (env : UpdateEnv) (uc : UpdateChannel) (st : Storage) : Option Nat :=
  match env.remoteTimestamp uc with
  | none => none
  | some timestamp =>
      let stored := (st.getInt ("uc-timestamp: " ++ uc.name)).getD 0
      if stored < timestamp then some timestamp else none

/-- `Updater::get_new_rulesets` (src/updater.rs lines 148-169): store the new
`uc-timestamp` FIRST, then fetch signature and rulesets. -/
def get_new_rulesets (env : UpdateEnv) (uc : UpdateChannel) (ts : Nat) (st : Storage) :
    Storage × Option (List Nat × List Nat) :=
  let st := st.setInt ("uc-timestamp: " ++ uc.name) ts
  (st, env.fetchRulesets uc ts)

/-- `Updater::get_new_bloom` (src/updater.rs lines 179-208): same pattern. -/
def get_new_bloom (env : UpdateEnv) (uc : UpdateChannel) (ts : Nat) (st : Storage) :
    Storage × Option (List Nat × List Nat × List Nat) :=
  let st := st.setInt ("uc-timestamp: " ++ uc.name) ts
  (st, env.fetchBloom uc ts)

/-- `Updater::verify_and_store_new_rulesets` (src/updater.rs lines 221-253):
on a valid signature, gunzip, check the JSON `timestamp` field against the
fetched timestamp and store the JSON string; every failure (including a
negative verification verdict) is an `Err`, reported as `false`. -/
def verify_and_store_new_rulesets (env : UpdateEnv) (signature rulesets : List Nat)
    (ts : Nat) (uc : UpdateChannel) (st : Storage) : Storage × Bool :=
  match env.verify uc rulesets signature with
  | some true =>
      match env.gunzipToString rulesets with
      | none => (st, false)
      | some rulesets_json_string =>
          match env.jsonTimestamp rulesets_json_string with
          | some json_timestamp =>
              if json_timestamp ≠ (ts : Int) then (st, false)
              else (st.setString ("rulesets: " ++ uc.name) rulesets_json_string, true)
          | none => (st, false)
  | some false => (st, false)
  | none => (st, false)

/-- `Updater::verify_and_store_new_bloom` (src/updater.rs lines 255-355).
NOTE the asymmetry with the rulesets variant, faithfully reproduced: when the
signature verdict is `false` the source's `if verifier.verify(..)? { .. }`
block is skipped and the function falls through to `Ok(())`, so the result is
reported as success (`true`) without anything stored. -/
def verify_and_store_new_bloom (env : UpdateEnv) (signature bloom_metadata bloom : List Nat)
    (ts : Nat) (uc : UpdateChannel) (st : Storage) : Storage × Bool :=
  match env.verify uc bloom_metadata signature with
  | none => (st, false)
  | some false => (st, true)
  | some true =>
      match env.parseBloomMeta bloom_metadata with
      | none => (st, false)
      | some md =>
          match md.timestampField with
          | none => (st, false)
          | some json_timestamp =>
              if json_timestamp ≠ (ts : Int) then (st, false)
              else
                match md.sha256sum with
                | none => (st, false)
                | some sum =>
                    if sum ≠ env.sha256 bloom then (st, false)
                    else
                      match md.bitmap_bits, md.k_num, md.sip_keys with
                      | some bitmap_bits, some k_num, some (k00, k01, k10, k11) =>
                          let st := st.setBytes ("bloom: " ++ uc.name) bloom
                          let st := st.setInt ("bloom_bitmap_bits: " ++ uc.name) bitmap_bits
                          let st := st.setInt ("bloom_k_num: " ++ uc.name) k_num
                          let st := st.setInt ("bloom_sip_keys_0_0: " ++ uc.name) k00
                          let st := st.setInt ("bloom_sip_keys_0_1: " ++ uc.name) k01
                          let st := st.setInt ("bloom_sip_keys_1_0: " ++ uc.name) k10
                          let st := st.setInt ("bloom_sip_keys_1_1: " ++ uc.name) k11
                          (st, true)
                      | _, _, _ => (st, false)

/-- One ruleset-format channel in `Updater::perform_check`'s first loop
(src/updater.rs lines 372-398); `ext` is the `extension-timestamp` read once
before the loop. -/
def processRulesetsChannel (env : UpdateEnv) (ext : Nat) (uc : UpdateChannel)
    (acc : Storage × Bool) : Storage × Bool :=
  let st := acc.1
  match check_for_new_updates env uc st with
  | none => acc
  | some ts =>
      if uc.replaces_default_rulesets ∧ ts < ext then acc
      else
        let fetched := get_new_rulesets env uc ts st
        match fetched.2 with
        | none => (fetched.1, acc.2)
        | some (signature, rulesets) =>
            let verified := verify_and_store_new_rulesets env signature rulesets ts uc fetched.1
            if verified.2 then
              (Storage.setInt verified.1 ("uc-stored-timestamp: " ++ uc.name) ts, true)
            else (verified.1, acc.2)

/-- One Bloom-format channel in `Updater::perform_check`'s second loop
(src/updater.rs lines 400-420). -/
def processBloomChannel (env : UpdateEnv) (uc : UpdateChannel)
    (acc : Storage × Bool) : Storage × Bool :=
  let st := acc.1
  match check_for_new_updates env uc st with
  | none => acc
  | some ts =>
      let fetched := get_new_bloom env uc ts st
      match fetched.2 with
      | none => (fetched.1, acc.2)
      | some (signature, bloom_metadata, bloom) =>
          let verified := verify_and_store_new_bloom env signature bloom_metadata bloom ts uc fetched.1
          if verified.2 then
            (Storage.setInt verified.1 ("uc-stored-timestamp: " ++ uc.name) ts, true)
          else (verified.1, acc.2)

/-- The `rulesets_closure` of `Updater::apply_stored_rulesets`
(src/updater.rs lines 433-444).  Outer `none` models the
`.get("rulesets").unwrap()` panic on a stored bundle without that field;
inner `none` is the closure's `Err` (missing storage entry or parse error),
which the caller filters out. -/
def rulesetsClosure (parseJson : String → Option Json) (st : Storage) (uc : UpdateChannel) :
    Option (Option (Json × Option String × Bool)) :=
  match st.getString ("rulesets: " ++ uc.name) with
  | none => some none
  | some rulesets_json_string =>
      match parseJson rulesets_json_string with
      | none => some none
      | some v =>
          match v with
          | Json.jobj fields =>
              match jget fields "rulesets" with
              | none => none
              | some inner => some (some (inner, uc.scope, uc.replaces_default_rulesets))
          | _ => none

/-- The successfully loaded per-channel tuples, in channel order
(src/updater.rs lines 446-450); `none` propagates a closure panic. -/
def ingestedTuples (parseJson : String → Option Json) (ucs : List UpdateChannel)
    (st : Storage) : Option (List (Json × Option String × Bool)) :=
  (ucs.filter (fun uc => uc.format = UpdateChannelFormat.rulesets)).foldl
    (fun acc uc =>
      match acc with
      | none => none
      | some l =>
          match rulesetsClosure parseJson st uc with
          | none => none
          | some none => some l
          | some (some t) => some (l ++ [t]))
    (some [])

/-- The clear-and-reingest of the ruleset index inside the loaded tuples
(src/updater.rs lines 459-464). -/
def channelIngest (tuples : List (Json × Option String × Bool)) : RuleSets :=
  tuples.foldl
    (fun m rt => addAllFromSerdeValue m rt.1 ENABLE_MIXED_RULESETS RULE_ACTIVE_STATES rt.2.1)
    []

/-- The ruleset half of `Updater::apply_stored_rulesets`
(src/updater.rs lines 428-468): rebuild the index from the stored channel
bundles, then ingest the bundled defaults iff no loaded channel replaces
them.  `none` models a panic (closure unwrap, or the `.expect` inside
`add_all_from_json_string` when the defaults string does not parse). -/
def applyStoredRuleSets (parseJson : String → Option Json) (ucs : List UpdateChannel)
    (defaults : Option String) (st : Storage) : Option RuleSets :=
  match ingestedTuples parseJson ucs st with
  | none => none
  | some tuples =>
      let replaces := tuples.foldl (fun acc rt => if rt.2.2 then true else acc) false
      let m := channelIngest tuples
      if replaces = false ∧ defaults.isSome then
        match defaults with
        | some d =>
            match parseJson d with
            | none => none
            | some v =>
                some (addAllFromSerdeValue m v ENABLE_MIXED_RULESETS RULE_ACTIVE_STATES none)
        | none => some m
      else some m

/-- The arguments the source passes to `Bloom::from_existing` for one
restored filter (src/updater.rs line 484). -/
structure BloomRestored where
  bitmap : List Nat
  bitmap_bits : Nat
  k_num : Nat
  sip_keys : Nat × Nat × Nat × Nat
deriving DecidableEq

/-- The bloom half of `Updater::apply_stored_rulesets` (src/updater.rs lines
471-496): channels without stored bytes error out of the closure and are
skipped; stored bytes with any missing parameter hit an `unwrap` panic
(`none`). -/
def applyStoredBlooms (ucs : List UpdateChannel) (st : Storage) :
    Option (List BloomRestored) :=
  (ucs.filter (fun uc => uc.format = UpdateChannelFormat.bloom)).foldl
    (fun acc uc =>
      match acc with
      | none => none
      | some l =>
          match st.getBytes ("bloom: " ++ uc.name) with
          | none => some l
          | some bloom =>
              match st.getInt ("bloom_bitmap_bits: " ++ uc.name),
                    st.getInt ("bloom_k_num: " ++ uc.name),
                    st.getInt ("bloom_sip_keys_0_0: " ++ uc.name),
                    st.getInt ("bloom_sip_keys_0_1: " ++ uc.name),
                    st.getInt ("bloom_sip_keys_1_0: " ++ uc.name),
                    st.getInt ("bloom_sip_keys_1_1: " ++ uc.name) with
              | some bb, some kn, some k00, some k01, some k10, some k11 =>
                  some (l ++ [⟨bloom, bb, kn, (k00, k01, k10, k11)⟩])
              | _, _, _, _, _, _ => none)
    (some [])

/-- The whole mutable state `Updater::perform_check` touches. -/
structure UpdaterState where
  storage : Storage
  rulesets : RuleSets
  blooms : List BloomRestored

/-- `Updater::perform_check` (src/updater.rs lines 364-425): stamp
`last-checked`, read `extension-timestamp`, run both per-channel loops, and
if anything updated rebuild the in-memory rulesets and blooms.  `none`
models a panic during the rebuild. -/
def perform_check (env : UpdateEnv) (ucs : List UpdateChannel)
    (defaults : Option String) (parseJson : String → Option Json)
    (s : UpdaterState) : Option UpdaterState :=
  let st := s.storage.setInt "last-checked" env.now
  let ext := (st.getInt "extension-timestamp").getD 0
  let r1 := (ucs.filter (fun uc => uc.format = UpdateChannelFormat.rulesets)).foldl
    (fun acc uc => processRulesetsChannel env ext uc acc) (st, false)
  let r2 := (ucs.filter (fun uc => uc.format = UpdateChannelFormat.bloom)).foldl
    (fun acc uc => processBloomChannel env uc acc) r1
  if r2.2 then
    match applyStoredRuleSets parseJson ucs defaults r2.1, applyStoredBlooms ucs r2.1 with
    | some m, some bl => some ⟨r2.1, m, bl⟩
    | _, _ => none
  else some ⟨r2.1, s.rulesets, s.blooms⟩

/-- The body of the loop in `Updater::clear_replacement_update_channels`
(src/updater.rs lines 511-517). -/
def clearStep (st : Storage) (uc : UpdateChannel) : Storage :=
  if uc.replaces_default_rulesets then
    let st := st.setInt ("rulesets-timestamp: " ++ uc.name) 0
    let st := st.setInt ("rulesets-stored-timestamp: " ++ uc.name) 0
    st.setString ("rulesets: " ++ uc.name) ""
  else st

/-- `Updater::clear_replacement_update_channels` (src/updater.rs lines
510-518). -/
def clear_replacement_update_channels (ucs : List UpdateChannel) (st : Storage) : Storage :=
  ucs.foldl clearStep st

/-! ## Spec-side key descriptions for the wildcard lookup

These name the keys the specification talks about; each is read off the
slicing behaviour of the source (src/rulesets.rs lines 377-395). -/

/-- The rulesets stored under one exact index key. -/
def exactMatches (m : RuleSets) (host : String) : List RuleSet :=
  (lookupA m host).getD []

/-- The right-wildcard key: the last label replaced by `*`. -/
def rightWildcardKey (host : String) : String :=
  let labels := splitDots host
  String.intercalate "." (labels.set (labels.length - 1) "*")

/-- The left-wildcard key for wildcard position `i`: the label at position
`i` becomes `*` and, as in the source's slice, the labels before it are
dropped, so the key always starts with `*.`. -/
def leftWildcardKey (host : String) (i : Nat) : String :=
  String.intercalate "." ("*" :: (splitDots host).drop (i + 1))

/-! ## General lemmas -/

theorem tryAdd_eq (m : RuleSets) (acc : List RuleSet) (host : String) :
    tryAdd m acc host = acc ++ exactMatches m host := by
  unfold tryAdd exactMatches
  cases lookupA m host <;> simp

theorem foldl_append_flat {α β : Type} (f : α → List β) (l : List α) (init : List β) :
    l.foldl (fun acc x => acc ++ f x) init = init ++ l.flatMap f := by
  induction l generalizing init with
  | nil => simp
  | cons x xs ih => simp [List.foldl_cons, ih, List.flatMap_cons]

theorem drop_set_cons {α : Type} (l : List α) (i : Nat) (a : α) (h : i < l.length) :
    (l.set i a).drop i = a :: l.drop (i + 1) := by
  induction l generalizing i with
  | nil => simp at h
  | cons x xs ih =>
    cases i with
    | zero => simp
    | succ n =>
      simp only [List.set_cons_succ, List.drop_succ_cons]
      exact ih n (by simpa using h)

/-- C3: `RuleSets::potentially_applicable(h)` first returns exactly the
rulesets indexed under the exact key `h`; if `h` is empty, longer than 255
bytes or contains `..`, those exact matches are all; otherwise they are
followed by the rulesets under the single right-wildcard key (last label
replaced by `*`) and then, for each wildcard position `i` from `0` to
`len(labels) - 2` in increasing order, the rulesets under the left-wildcard
key for position `i`, in exactly that order. -/
theorem potentially_applicable_order (m : RuleSets) (host : String) :
    potentially_applicable m host =
      exactMatches m host ++
      (if host.utf8ByteSize = 0 ∨ 255 < host.utf8ByteSize ∨ strContainsSub host ".." then []
       else
         exactMatches m (rightWildcardKey host) ++
         (List.range ((splitDots host).length - 1)).flatMap
           (fun i => exactMatches m (leftWildcardKey host i))) := by
  by_cases hwf : host.utf8ByteSize = 0 ∨ 255 < host.utf8ByteSize ∨ strContainsSub host ".."
  · simp [potentially_applicable, hwf, tryAdd_eq]
  · simp only [potentially_applicable, hwf, if_neg, if_false]
    rw [tryAdd_eq, tryAdd_eq]
    rw [List.foldl_ext
          (fun acc index =>
            tryAdd m acc (String.intercalate "." (((splitDots host).set index "*").drop index)))
          (fun acc index => acc ++ exactMatches m (leftWildcardKey host index))
          _
          (fun acc index hidx => by
            show tryAdd m acc (String.intercalate "." (((splitDots host).set index "*").drop index)) =
              acc ++ exactMatches m (leftWildcardKey host index)
            rw [tryAdd_eq]
            have hlt : index < (splitDots host).length := by
              have := List.mem_range.mp hidx
              omega
            rw [drop_set_cons _ _ _ hlt]
            rfl)]
    rw [foldl_append_flat]
    simp [rightWildcardKey, List.append_assoc]

/-- A tiny regex engine for witnesses: its `isMatch` holds exactly of the
pattern/text pair the witness exercises, and its `replaceAll` never changes
its input (consistent with the real engine whenever the pattern does not
match). -/
def witnessEngine : RegexEngine :=
  { isMatch := fun pat s => pat = "excl" ∧ s = "http://excluded.example/",
    replaceAll := fun _ s _ => s }

/-- A ruleset with an exclusion and a trivial rule, for the C4 witness. -/
def exclusionRS : RuleSet :=
  { name := "excl-rs", rules := [Rule.trivial], exclusions := some "excl",
    cookierules := none, active := true, default_state := true,
    scope := none, note := none }

/-- C4: for every RuleSet with an exclusions regex that matches the URL,
`RuleSet::apply` returns no rewrite, whatever the rules are. -/
theorem exclusion_match_gives_no_rewrite (eng : RegexEngine) (r : RuleSet)
    (u e : String) (hex : r.exclusions = some e) (hm : eng.isMatch e u = true) :
    RuleSet.apply eng r u = none := by
  unfold RuleSet.apply
  rw [hex]
  show (if eng.isMatch e u = true then none else applyRules eng r.rules u) = none
  rw [hm]
  simp

theorem exclusion_match_gives_no_rewrite_witness :
    exclusionRS.exclusions = some "excl" ∧
    witnessEngine.isMatch "excl" "http://excluded.example/" = true ∧
    RuleSet.apply witnessEngine exclusionRS "http://excluded.example/" = none :=
  ⟨rfl, by decide,
   exclusion_match_gives_no_rewrite witnessEngine exclusionRS
     "http://excluded.example/" "excl" rfl (by decide)⟩

/-- A ruleset whose only rule is `Trivial`, for the C5 counterexample. -/
def trivialOnlyRS : RuleSet :=
  { name := "trivial-only", rules := [Rule.trivial], exclusions := none,
    cookierules := none, active := true, default_state := true,
    scope := none, note := none }

/-- An engine that matches nothing and changes nothing, which is what the
real engine does on the inputs the counterexample exercises (the pattern
`^http:` does not match `ftp://example.com/`). -/
def inertEngine : RegexEngine :=
  { isMatch := fun _ _ => false, replaceAll := fun _ s _ => s }

/-- C5 counterexample: a RuleSet whose only rule is `Trivial`, applied to a
URL that does not start with `http:`.  Applying the rule leaves the URL
unchanged (third conjunct), there is no exclusion, and yet `apply` returns
`Some` of the unchanged URL rather than "no rewrite": the source returns
unconditionally on reaching a `Trivial` rule (src/rulesets.rs line 216). -/
theorem trivial_unchanged_still_rewrites :
    trivialOnlyRS.rules = [Rule.trivial] ∧
    trivialOnlyRS.exclusions = none ∧
    inertEngine.replaceAll "^http:" "ftp://example.com/" "https:" = "ftp://example.com/" ∧
    RuleSet.apply inertEngine trivialOnlyRS "ftp://example.com/" = some "ftp://example.com/" := by
  refine ⟨rfl, rfl, rfl, ?_⟩
  rfl

/-- Helper for the amended C5: the rule loop yields nothing when no rule is
`Trivial` and every `NonTrivial` replacement leaves the URL unchanged. -/
theorem applyRules_none_of_unchanged (eng : RegexEngine) (rules : List Rule) (u : String)
    (hnt : Rule.trivial ∉ rules)
    (hun : ∀ fr ts, Rule.nonTrivial fr ts ∈ rules → eng.replaceAll fr u ts = u) :
    applyRules eng rules u = none := by
  induction rules with
  | nil => rfl
  | cons r rest ih =>
    cases r with
    | trivial => exact absurd (List.mem_cons_self _ _) hnt
    | nonTrivial fr ts =>
      have hu : eng.replaceAll fr u ts = u := hun fr ts (List.mem_cons_self _ _)
      simp only [applyRules, hu, ne_eq, not_true_eq_false, if_false, ite_self]
      exact ih (fun h => hnt (List.mem_cons_of_mem _ h))
        (fun fr' ts' h => hun fr' ts' (List.mem_cons_of_mem _ h))

/-- Helper for the amended C5: a present `Trivial` rule is reached when every
`NonTrivial` replacement leaves the URL unchanged, and returns `Some` of the
trivial replacement unconditionally. -/
theorem applyRules_trivial_reached (eng : RegexEngine) (rules : List Rule) (u : String)
    (htr : Rule.trivial ∈ rules)
    (hun : ∀ fr ts, Rule.nonTrivial fr ts ∈ rules → eng.replaceAll fr u ts = u) :
    applyRules eng rules u = some (eng.replaceAll "^http:" u "https:") := by
  induction rules with
  | nil => cases htr
  | cons r rest ih =>
    cases r with
    | trivial => rfl
    | nonTrivial fr ts =>
      have hu : eng.replaceAll fr u ts = u := hun fr ts (List.mem_cons_self _ _)
      simp only [applyRules, hu, ne_eq, not_true_eq_false, if_false, ite_self]
      refine ih ?_ (fun fr' ts' h => hun fr' ts' (List.mem_cons_of_mem _ h))
      cases List.mem_cons.mp htr with
      | inl h => cases h
      | inr h => exact h

/-- C5 amended: for a RuleSet whose exclusions do not match the URL, if no
rule is `Trivial` and every `NonTrivial` rule's replacement leaves the URL
unchanged, `apply` returns no rewrite; but a present `Trivial` rule (reached
because every `NonTrivial` rule leaves the URL unchanged) makes `apply`
return `Some` of the trivial replacement even when that replacement leaves
the URL unchanged (in particular on a URL that does not start with
`http:`). -/
theorem apply_none_iff_no_trivial_reached :
    (∀ (eng : RegexEngine) (r : RuleSet) (u : String),
      (∀ e, r.exclusions = some e → eng.isMatch e u = false) →
      Rule.trivial ∉ r.rules →
      (∀ fr ts, Rule.nonTrivial fr ts ∈ r.rules → eng.replaceAll fr u ts = u) →
      RuleSet.apply eng r u = none)
    ∧ (∀ (eng : RegexEngine) (r : RuleSet) (u : String),
      (∀ e, r.exclusions = some e → eng.isMatch e u = false) →
      Rule.trivial ∈ r.rules →
      (∀ fr ts, Rule.nonTrivial fr ts ∈ r.rules → eng.replaceAll fr u ts = u) →
      RuleSet.apply eng r u = some (eng.replaceAll "^http:" u "https:")) := by
  constructor
  · intro eng r u hex hnt hun
    unfold RuleSet.apply
    cases hexc : r.exclusions with
    | none => exact applyRules_none_of_unchanged eng r.rules u hnt hun
    | some e =>
      show (if eng.isMatch e u = true then none else applyRules eng r.rules u) = none
      rw [hex e hexc]
      simp only [Bool.false_eq_true, if_false]
      exact applyRules_none_of_unchanged eng r.rules u hnt hun
  · intro eng r u hex htr hun
    unfold RuleSet.apply
    cases hexc : r.exclusions with
    | none => exact applyRules_trivial_reached eng r.rules u htr hun
    | some e =>
      show (if eng.isMatch e u = true then none else applyRules eng r.rules u) =
        some (eng.replaceAll "^http:" u "https:")
      rw [hex e hexc]
      simp only [Bool.false_eq_true, if_false]
      exact applyRules_trivial_reached eng r.rules u htr hun

/-- A ruleset with one non-trivial rule, for the amended C5 witness. -/
def nonTrivialOnlyRS : RuleSet :=
  { name := "nontrivial-only", rules := [Rule.nonTrivial "^http://old" "https://new"],
    exclusions := none, cookierules := none, active := true,
    default_state := true, scope := none, note := none }

theorem apply_none_iff_no_trivial_reached_witness :
    Rule.trivial ∉ nonTrivialOnlyRS.rules ∧
    inertEngine.replaceAll "^http://old" "ftp://example.com/" "https://new" = "ftp://example.com/" ∧
    RuleSet.apply inertEngine nonTrivialOnlyRS "ftp://example.com/" = none ∧
    RuleSet.apply inertEngine trivialOnlyRS "ftp://example.com/" =
      some (inertEngine.replaceAll "^http:" "ftp://example.com/" "https:") := by
  refine ⟨by decide, rfl, ?_, ?_⟩
  · exact apply_none_iff_no_trivial_reached.1 inertEngine nonTrivialOnlyRS
      "ftp://example.com/" (fun e he => by cases he) (by decide)
      (fun fr ts h => rfl)
  · exact apply_none_iff_no_trivial_reached.2 inertEngine trivialOnlyRS
      "ftp://example.com/" (fun e he => by cases he) (by decide)
      (fun fr ts h => by simp [trivialOnlyRS] at h)

/-! ## Storage frame lemmas and key disequalities -/

theorem getInt_setString (st : Storage) (k : String) (v : String) (k' : String) :
    (st.setString k v).getInt k' = st.getInt k' := rfl

theorem getInt_setBytes (st : Storage) (k : String) (v : List Nat) (k' : String) :
    (st.setBytes k v).getInt k' = st.getInt k' := rfl

theorem getString_setInt (st : Storage) (k : String) (v : Nat) (k' : String) :
    (st.setInt k v).getString k' = st.getString k' := rfl

theorem getString_setBytes (st : Storage) (k : String) (v : List Nat) (k' : String) :
    (st.setBytes k v).getString k' = st.getString k' := rfl

theorem getInt_setInt (st : Storage) (k : String) (v : Nat) (k' : String) :
    (st.setInt k v).getInt k' = if k' = k then some v else st.getInt k' :=
  lookupA_updA st.ints k k' v

theorem getString_setString (st : Storage) (k v k' : String) :
    (st.setString k v).getString k' = if k' = k then some v else st.getString k' :=
  lookupA_updA st.strings k k' v

/-- Two strings differing at some character position are different. -/
theorem key_ne_of_probe (i : Nat) (s t : String) (c d : Char)
    (hs : s.data.get? i = some c) (ht : t.data.get? i = some d) (hcd : c ≠ d) :
    s ≠ t := by
  intro he
  rw [he, ht] at hs
  exact hcd (Option.some.inj hs).symm

theorem strAppend_left_cancel (p a b : String) (h : p ++ a = p ++ b) : a = b := by
  have hd : p.data ++ a.data = p.data ++ b.data := congrArg String.data h
  have h2 := List.append_cancel_left hd
  cases a; cases b; exact congrArg String.mk h2

theorem uc_ts_ne_rt (a b : String) :
    ("uc-timestamp: " ++ a) ≠ ("rulesets-timestamp: " ++ b) :=
  key_ne_of_probe 0 _ _ 'u' 'r' rfl rfl (by decide)

theorem uc_ts_ne_rst (a b : String) :
    ("uc-timestamp: " ++ a) ≠ ("rulesets-stored-timestamp: " ++ b) :=
  key_ne_of_probe 0 _ _ 'u' 'r' rfl rfl (by decide)

theorem uc_sts_ne_rt (a b : String) :
    ("uc-stored-timestamp: " ++ a) ≠ ("rulesets-timestamp: " ++ b) :=
  key_ne_of_probe 0 _ _ 'u' 'r' rfl rfl (by decide)

theorem uc_sts_ne_rst (a b : String) :
    ("uc-stored-timestamp: " ++ a) ≠ ("rulesets-stored-timestamp: " ++ b) :=
  key_ne_of_probe 0 _ _ 'u' 'r' rfl rfl (by decide)

theorem rt_ne_rst (a b : String) :
    ("rulesets-timestamp: " ++ a) ≠ ("rulesets-stored-timestamp: " ++ b) :=
  key_ne_of_probe 9 _ _ 't' 's' rfl rfl (by decide)

theorem rst_ne_rt (a b : String) :
    ("rulesets-stored-timestamp: " ++ a) ≠ ("rulesets-timestamp: " ++ b) :=
  key_ne_of_probe 9 _ _ 's' 't' rfl rfl (by decide)

/-! ## Lemmas about `clear_replacement_update_channels` -/

theorem clearStep_getInt_frame (uc : UpdateChannel) (st : Storage) (k : String)
    (h : uc.replaces_default_rulesets = true →
      k ≠ "rulesets-timestamp: " ++ uc.name ∧ k ≠ "rulesets-stored-timestamp: " ++ uc.name) :
    (clearStep st uc).getInt k = st.getInt k := by
  unfold clearStep
  by_cases hr : uc.replaces_default_rulesets
  · obtain ⟨h1, h2⟩ := h hr
    simp only [hr, if_true, getInt_setString, getInt_setInt, if_neg h1, if_neg h2]
  · simp [hr]

theorem clearStep_getString_frame (uc : UpdateChannel) (st : Storage) (k : String)
    (h : uc.replaces_default_rulesets = true → k ≠ "rulesets: " ++ uc.name) :
    (clearStep st uc).getString k = st.getString k := by
  unfold clearStep
  by_cases hr : uc.replaces_default_rulesets
  · simp only [hr, if_true, getString_setString, getString_setInt, if_neg (h hr)]
  · simp [hr]

theorem clearStep_getInt_zero (uc : UpdateChannel) (st : Storage) (k : String)
    (hz : st.getInt k = some 0) : (clearStep st uc).getInt k = some 0 := by
  unfold clearStep
  by_cases hr : uc.replaces_default_rulesets
  · simp only [hr, if_true, getInt_setString, getInt_setInt]
    split <;> [rfl; skip]
    split <;> [rfl; exact hz]
  · simp [hr, hz]

theorem clearStep_getString_empty (uc : UpdateChannel) (st : Storage) (k : String)
    (hz : st.getString k = some "") : (clearStep st uc).getString k = some "" := by
  unfold clearStep
  by_cases hr : uc.replaces_default_rulesets
  · simp only [hr, if_true, getString_setString, getString_setInt]
    split <;> [rfl; exact hz]
  · simp [hr, hz]

theorem clearStep_clears (uc : UpdateChannel) (st : Storage)
    (hr : uc.replaces_default_rulesets = true) :
    (clearStep st uc).getInt ("rulesets-timestamp: " ++ uc.name) = some 0 ∧
    (clearStep st uc).getInt ("rulesets-stored-timestamp: " ++ uc.name) = some 0 ∧
    (clearStep st uc).getString ("rulesets: " ++ uc.name) = some "" := by
  unfold clearStep
  simp only [hr, if_true, getInt_setString, getInt_setInt, getString_setString,
    getString_setInt]
  refine ⟨?_, ?_, ?_⟩
  · split <;> rfl
  · trivial
  · trivial

theorem clear_getInt_frame (ucs : List UpdateChannel) (st : Storage) (k : String)
    (h : ∀ uc ∈ ucs, uc.replaces_default_rulesets = true →
      k ≠ "rulesets-timestamp: " ++ uc.name ∧ k ≠ "rulesets-stored-timestamp: " ++ uc.name) :
    (clear_replacement_update_channels ucs st).getInt k = st.getInt k := by
  induction ucs generalizing st with
  | nil => rfl
  | cons u rest ih =>
    show (clear_replacement_update_channels rest (clearStep st u)).getInt k = st.getInt k
    rw [ih (clearStep st u) (fun uc hm => h uc (List.mem_cons_of_mem _ hm))]
    exact clearStep_getInt_frame u st k (h u (List.mem_cons_self _ _))

theorem clear_getString_frame (ucs : List UpdateChannel) (st : Storage) (k : String)
    (h : ∀ uc ∈ ucs, uc.replaces_default_rulesets = true → k ≠ "rulesets: " ++ uc.name) :
    (clear_replacement_update_channels ucs st).getString k = st.getString k := by
  induction ucs generalizing st with
  | nil => rfl
  | cons u rest ih =>
    show (clear_replacement_update_channels rest (clearStep st u)).getString k = st.getString k
    rw [ih (clearStep st u) (fun uc hm => h uc (List.mem_cons_of_mem _ hm))]
    exact clearStep_getString_frame u st k (h u (List.mem_cons_self _ _))

theorem clear_getInt_zero (ucs : List UpdateChannel) (st : Storage) (k : String)
    (hz : st.getInt k = some 0) :
    (clear_replacement_update_channels ucs st).getInt k = some 0 := by
  induction ucs generalizing st with
  | nil => exact hz
  | cons u rest ih =>
    exact ih (clearStep st u) (clearStep_getInt_zero u st k hz)

theorem clear_getString_empty (ucs : List UpdateChannel) (st : Storage) (k : String)
    (hz : st.getString k = some "") :
    (clear_replacement_update_channels ucs st).getString k = some "" := by
  induction ucs generalizing st with
  | nil => exact hz
  | cons u rest ih =>
    exact ih (clearStep st u) (clearStep_getString_empty u st k hz)

/-- A replacing channel (name `a`) and a non-replacing channel that happens to
share the same name, for the C10 counterexample. -/
def ucReplSharedName : UpdateChannel :=
  { name := "a", scope := none, replaces_default_rulesets := true,
    format := UpdateChannelFormat.rulesets }

def ucPlainSharedName : UpdateChannel :=
  { name := "a", scope := none, replaces_default_rulesets := false,
    format := UpdateChannelFormat.rulesets }

def storageSharedName : Storage :=
  { ints := [], strings := [("rulesets: a", "old")], bools := [], bytesKV := [] }

/-- C10 counterexample: with a replacing channel and a non-replacing channel
that share the name `a`, `clear_replacement_update_channels` overwrites the
key `rulesets: a` — a key of the non-replacing channel — so "all keys of
channels not marked replaces_default_rulesets are left unchanged" fails as
stated. -/
theorem clear_changes_shared_name_key :
    ucPlainSharedName.replaces_default_rulesets = false ∧
    storageSharedName.getString ("rulesets: " ++ ucPlainSharedName.name) = some "old" ∧
    (clear_replacement_update_channels [ucReplSharedName, ucPlainSharedName]
        storageSharedName).getString ("rulesets: " ++ ucPlainSharedName.name) = some "" := by
  refine ⟨rfl, rfl, ?_⟩
  rfl

/-- C10 amended: `clear_replacement_update_channels` sets
`rulesets-timestamp: <ch>` and `rulesets-stored-timestamp: <ch>` to 0 and
`rulesets: <ch>` to the empty string for every channel marked
`replaces_default_rulesets`; it never touches any `uc-timestamp: <ch>` or
`uc-stored-timestamp: <ch>` key; and the keys of a channel not marked
`replaces_default_rulesets` are unchanged provided no replacing channel
shares its name (the counterexample shows the proviso is necessary). -/
theorem clear_replacement_update_channels_effect :
    (∀ (ucs : List UpdateChannel) (st : Storage) (uc : UpdateChannel), uc ∈ ucs →
      uc.replaces_default_rulesets = true →
      (clear_replacement_update_channels ucs st).getInt ("rulesets-timestamp: " ++ uc.name) = some 0 ∧
      (clear_replacement_update_channels ucs st).getInt ("rulesets-stored-timestamp: " ++ uc.name) = some 0 ∧
      (clear_replacement_update_channels ucs st).getString ("rulesets: " ++ uc.name) = some "")
    ∧ (∀ (ucs : List UpdateChannel) (st : Storage) (name : String),
      (clear_replacement_update_channels ucs st).getInt ("uc-timestamp: " ++ name) =
        st.getInt ("uc-timestamp: " ++ name) ∧
      (clear_replacement_update_channels ucs st).getInt ("uc-stored-timestamp: " ++ name) =
        st.getInt ("uc-stored-timestamp: " ++ name))
    ∧ (∀ (ucs : List UpdateChannel) (st : Storage) (uc : UpdateChannel), uc ∈ ucs →
      uc.replaces_default_rulesets = false →
      (∀ uc', uc' ∈ ucs → uc'.replaces_default_rulesets = true → uc'.name ≠ uc.name) →
      (clear_replacement_update_channels ucs st).getInt ("rulesets-timestamp: " ++ uc.name) =
        st.getInt ("rulesets-timestamp: " ++ uc.name) ∧
      (clear_replacement_update_channels ucs st).getInt ("rulesets-stored-timestamp: " ++ uc.name) =
        st.getInt ("rulesets-stored-timestamp: " ++ uc.name) ∧
      (clear_replacement_update_channels ucs st).getString ("rulesets: " ++ uc.name) =
        st.getString ("rulesets: " ++ uc.name)) := by
  refine ⟨?_, ?_, ?_⟩
  · intro ucs st uc hm hr
    induction ucs generalizing st with
    | nil => cases hm
    | cons u rest ih =>
      show (clear_replacement_update_channels rest (clearStep st u)).getInt _ = some 0 ∧
        (clear_replacement_update_channels rest (clearStep st u)).getInt _ = some 0 ∧
        (clear_replacement_update_channels rest (clearStep st u)).getString _ = some ""
      cases List.mem_cons.mp hm with
      | inl he =>
        subst he
        obtain ⟨h1, h2, h3⟩ := clearStep_clears uc st hr
        exact ⟨clear_getInt_zero rest _ _ h1, clear_getInt_zero rest _ _ h2,
          clear_getString_empty rest _ _ h3⟩
      | inr hm' => exact ih (clearStep st u) hm'
  · intro ucs st name
    constructor
    · exact clear_getInt_frame ucs st _
        (fun uc _ _ => ⟨uc_ts_ne_rt name uc.name, uc_ts_ne_rst name uc.name⟩)
    · exact clear_getInt_frame ucs st _
        (fun uc _ _ => ⟨uc_sts_ne_rt name uc.name, uc_sts_ne_rst name uc.name⟩)
  · intro ucs st uc _ _ hdist
    refine ⟨?_, ?_, ?_⟩
    · refine clear_getInt_frame ucs st _ (fun uc' hm' hr' => ?_)
      refine ⟨?_, rt_ne_rst uc.name uc'.name⟩
      intro he
      exact hdist uc' hm' hr' (strAppend_left_cancel "rulesets-timestamp: " _ _ he).symm
    · refine clear_getInt_frame ucs st _ (fun uc' hm' hr' => ?_)
      refine ⟨rst_ne_rt uc.name uc'.name, ?_⟩
      intro he
      exact hdist uc' hm' hr'
        (strAppend_left_cancel "rulesets-stored-timestamp: " _ _ he).symm
    · refine clear_getString_frame ucs st _ (fun uc' hm' hr' => ?_)
      intro he
      exact hdist uc' hm' hr' (strAppend_left_cancel "rulesets: " _ _ he).symm

/-- A replacing and a non-replacing channel with distinct names, plus a
pre-populated storage, for the C10 witness. -/
def ucReplW : UpdateChannel :=
  { name := "a", scope := none, replaces_default_rulesets := true,
    format := UpdateChannelFormat.rulesets }

def ucPlainW : UpdateChannel :=
  { name := "c", scope := none, replaces_default_rulesets := false,
    format := UpdateChannelFormat.rulesets }

def storageW : Storage :=
  { ints := [("rulesets-timestamp: c", 9), ("uc-timestamp: a", 4)],
    strings := [("rulesets: a", "old"), ("rulesets: c", "keep")],
    bools := [], bytesKV := [] }

theorem clear_replacement_update_channels_effect_witness :
    (clear_replacement_update_channels [ucReplW, ucPlainW] storageW).getString
      ("rulesets: " ++ ucReplW.name) = some "" ∧
    (clear_replacement_update_channels [ucReplW, ucPlainW] storageW).getInt
      ("uc-timestamp: " ++ "a") = storageW.getInt ("uc-timestamp: " ++ "a") ∧
    (clear_replacement_update_channels [ucReplW, ucPlainW] storageW).getInt
      ("rulesets-timestamp: " ++ ucPlainW.name) =
      storageW.getInt ("rulesets-timestamp: " ++ ucPlainW.name) := by
  refine ⟨?_, ?_, ?_⟩
  · exact (clear_replacement_update_channels_effect.1 [ucReplW, ucPlainW] storageW ucReplW
      (List.mem_cons_self _ _) rfl).2.2
  · exact (clear_replacement_update_channels_effect.2.1 [ucReplW, ucPlainW] storageW "a").1
  · refine (clear_replacement_update_channels_effect.2.2 [ucReplW, ucPlainW] storageW ucPlainW
      (List.mem_cons_of_mem _ (List.mem_cons_self _ _)) rfl ?_).1
    intro uc' hm' hr'
    cases List.mem_cons.mp hm' with
    | inl he => subst he; decide
    | inr hm'' =>
      cases List.mem_cons.mp hm'' with
      | inl he => subst he; cases hr'
      | inr hm''' => cases hm'''

/-! ## Lemmas about the per-channel update step (C9) -/

theorem uc_ts_ne_uc_sts (a b : String) :
    ("uc-timestamp: " ++ a) ≠ ("uc-stored-timestamp: " ++ b) :=
  key_ne_of_probe 3 _ _ 't' 's' rfl rfl (by decide)

theorem uc_ts_ne_bloom_bb (a b : String) :
    ("uc-timestamp: " ++ a) ≠ ("bloom_bitmap_bits: " ++ b) :=
  key_ne_of_probe 0 _ _ 'u' 'b' rfl rfl (by decide)

theorem uc_ts_ne_bloom_kn (a b : String) :
    ("uc-timestamp: " ++ a) ≠ ("bloom_k_num: " ++ b) :=
  key_ne_of_probe 0 _ _ 'u' 'b' rfl rfl (by decide)

theorem uc_ts_ne_bloom_k00 (a b : String) :
    ("uc-timestamp: " ++ a) ≠ ("bloom_sip_keys_0_0: " ++ b) :=
  key_ne_of_probe 0 _ _ 'u' 'b' rfl rfl (by decide)

theorem uc_ts_ne_bloom_k01 (a b : String) :
    ("uc-timestamp: " ++ a) ≠ ("bloom_sip_keys_0_1: " ++ b) :=
  key_ne_of_probe 0 _ _ 'u' 'b' rfl rfl (by decide)

theorem uc_ts_ne_bloom_k10 (a b : String) :
    ("uc-timestamp: " ++ a) ≠ ("bloom_sip_keys_1_0: " ++ b) :=
  key_ne_of_probe 0 _ _ 'u' 'b' rfl rfl (by decide)

theorem uc_ts_ne_bloom_k11 (a b : String) :
    ("uc-timestamp: " ++ a) ≠ ("bloom_sip_keys_1_1: " ++ b) :=
  key_ne_of_probe 0 _ _ 'u' 'b' rfl rfl (by decide)

theorem check_some_remote (env : UpdateEnv) (uc : UpdateChannel) (st : Storage) (ts : Nat)
    (h : check_for_new_updates env uc st = some ts) : env.remoteTimestamp uc = some ts := by
  unfold check_for_new_updates at h
  cases hrt : env.remoteTimestamp uc with
  | none => rw [hrt] at h; cases h
  | some t =>
    rw [hrt] at h
    have h' : (if (st.getInt ("uc-timestamp: " ++ uc.name)).getD 0 < t then some t
        else none) = some ts := h
    by_cases hlt : ((st.getInt ("uc-timestamp: " ++ uc.name)).getD 0) < t
    · rw [if_pos hlt] at h'
      exact h'
    · rw [if_neg hlt] at h'; cases h'

theorem check_none_of_stored (env : UpdateEnv) (uc : UpdateChannel) (st : Storage) (ts : Nat)
    (hrt : env.remoteTimestamp uc = some ts)
    (hst : st.getInt ("uc-timestamp: " ++ uc.name) = some ts) :
    check_for_new_updates env uc st = none := by
  unfold check_for_new_updates
  rw [hrt, hst]
  simp

theorem vsr_getInt (env : UpdateEnv) (sig rl : List Nat) (ts : Nat) (uc : UpdateChannel)
    (st : Storage) (k : String) :
    (verify_and_store_new_rulesets env sig rl ts uc st).1.getInt k = st.getInt k := by
  unfold verify_and_store_new_rulesets
  repeat' split <;> try rfl

theorem vsb_getInt_uc_ts (env : UpdateEnv) (sig meta bloom : List Nat) (ts : Nat)
    (uc : UpdateChannel) (st : Storage) (n : String) :
    (verify_and_store_new_bloom env sig meta bloom ts uc st).1.getInt ("uc-timestamp: " ++ n) =
      st.getInt ("uc-timestamp: " ++ n) := by
  unfold verify_and_store_new_bloom
  repeat' split <;> try rfl
  rw [getInt_setInt, if_neg (uc_ts_ne_bloom_k11 n uc.name),
      getInt_setInt, if_neg (uc_ts_ne_bloom_k10 n uc.name),
      getInt_setInt, if_neg (uc_ts_ne_bloom_k01 n uc.name),
      getInt_setInt, if_neg (uc_ts_ne_bloom_k00 n uc.name),
      getInt_setInt, if_neg (uc_ts_ne_bloom_kn n uc.name),
      getInt_setInt, if_neg (uc_ts_ne_bloom_bb n uc.name),
      getInt_setBytes]

/-- C9: when the timestamp probe reports a remote timestamp newer than the
stored `uc-timestamp: <ch>` (and, for a replacing ruleset channel, not older
than the bundled extension timestamp), the per-channel step of
`Updater::perform_check` writes that remote timestamp to
`uc-timestamp: <ch>` before fetching, so whatever the fetch and verification
then do, the key has advanced and a subsequent probe against the same remote
timestamp reports no update. -/
theorem uc_timestamp_advances_before_fetch :
    (∀ (env : UpdateEnv) (ext : Nat) (uc : UpdateChannel) (st : Storage) (upd : Bool) (ts : Nat),
      check_for_new_updates env uc st = some ts →
      ¬ (uc.replaces_default_rulesets = true ∧ ts < ext) →
      (processRulesetsChannel env ext uc (st, upd)).1.getInt ("uc-timestamp: " ++ uc.name) = some ts ∧
      check_for_new_updates env uc (processRulesetsChannel env ext uc (st, upd)).1 = none)
    ∧ (∀ (env : UpdateEnv) (uc : UpdateChannel) (st : Storage) (upd : Bool) (ts : Nat),
      check_for_new_updates env uc st = some ts →
      (processBloomChannel env uc (st, upd)).1.getInt ("uc-timestamp: " ++ uc.name) = some ts ∧
      check_for_new_updates env uc (processBloomChannel env uc (st, upd)).1 = none) := by
  constructor
  · intro env ext uc st upd ts hch hskip
    have hkey : (processRulesetsChannel env ext uc (st, upd)).1.getInt
        ("uc-timestamp: " ++ uc.name) = some ts := by
      unfold processRulesetsChannel
      simp only [hch]
      rw [if_neg hskip]
      unfold get_new_rulesets
      cases hf : env.fetchRulesets uc ts with
      | none =>
        simp only [hf]
        rw [getInt_setInt, if_pos rfl]
      | some p =>
        obtain ⟨sig, rl⟩ := p
        simp only [hf]
        by_cases hv : (verify_and_store_new_rulesets env sig rl ts uc
            (st.setInt ("uc-timestamp: " ++ uc.name) ts)).2
        · simp only [hv, if_true]
          rw [getInt_setInt, if_neg (uc_ts_ne_uc_sts uc.name uc.name), vsr_getInt,
            getInt_setInt, if_pos rfl]
        · simp only [hv, Bool.false_eq_true, if_false]
          rw [vsr_getInt, getInt_setInt, if_pos rfl]
    exact ⟨hkey, check_none_of_stored env uc _ ts (check_some_remote env uc st ts hch) hkey⟩
  · intro env uc st upd ts hch
    have hkey : (processBloomChannel env uc (st, upd)).1.getInt
        ("uc-timestamp: " ++ uc.name) = some ts := by
      unfold processBloomChannel
      simp only [hch]
      unfold get_new_bloom
      cases hf : env.fetchBloom uc ts with
      | none =>
        simp only [hf]
        rw [getInt_setInt, if_pos rfl]
      | some p =>
        obtain ⟨sig, rest⟩ := p
        obtain ⟨meta, bloom⟩ := rest
        simp only [hf]
        by_cases hv : (verify_and_store_new_bloom env sig meta bloom ts uc
            (st.setInt ("uc-timestamp: " ++ uc.name) ts)).2
        · simp only [hv, if_true]
          rw [getInt_setInt, if_neg (uc_ts_ne_uc_sts uc.name uc.name), vsb_getInt_uc_ts,
            getInt_setInt, if_pos rfl]
        · simp only [hv, Bool.false_eq_true, if_false]
          rw [vsb_getInt_uc_ts, getInt_setInt, if_pos rfl]
    exact ⟨hkey, check_none_of_stored env uc _ ts (check_some_remote env uc st ts hch) hkey⟩

/-- An update environment whose probe reports timestamp 7 but whose payload
fetches all fail, for the C9 witness. -/
def envFetchFail : UpdateEnv :=
  { now := 1, remoteTimestamp := fun _ => some 7,
    fetchRulesets := fun _ _ => none, fetchBloom := fun _ _ => none,
    verify := fun _ _ _ => none, gunzipToString := fun _ => none,
    jsonTimestamp := fun _ => none, parseBloomMeta := fun _ => none,
    sha256 := fun b => b }

def ucRulesetsW : UpdateChannel :=
  { name := "r", scope := none, replaces_default_rulesets := false,
    format := UpdateChannelFormat.rulesets }

def ucBloomW : UpdateChannel :=
  { name := "w", scope := none, replaces_default_rulesets := false,
    format := UpdateChannelFormat.bloom }

def emptyStorage : Storage := { ints := [], strings := [], bools := [], bytesKV := [] }

theorem uc_timestamp_advances_before_fetch_witness :
    check_for_new_updates envFetchFail ucRulesetsW emptyStorage = some 7 ∧
    ((processRulesetsChannel envFetchFail 0 ucRulesetsW (emptyStorage, false)).1.getInt
        ("uc-timestamp: " ++ ucRulesetsW.name) = some 7 ∧
      check_for_new_updates envFetchFail ucRulesetsW
        (processRulesetsChannel envFetchFail 0 ucRulesetsW (emptyStorage, false)).1 = none) ∧
    ((processBloomChannel envFetchFail ucBloomW (emptyStorage, false)).1.getInt
        ("uc-timestamp: " ++ ucBloomW.name) = some 7 ∧
      check_for_new_updates envFetchFail ucBloomW
        (processBloomChannel envFetchFail ucBloomW (emptyStorage, false)).1 = none) :=
  ⟨rfl,
   uc_timestamp_advances_before_fetch.1 envFetchFail 0 ucRulesetsW emptyStorage false 7
     rfl (by decide),
   uc_timestamp_advances_before_fetch.2 envFetchFail ucBloomW emptyStorage false 7 rfl⟩

/-! ## C1: storage after a failed signature verification -/

/-- A Bloom-format channel for the C1 failing input. -/
def ucBloomBug : UpdateChannel :=
  { name := "b", scope := none, replaces_default_rulesets := false,
    format := UpdateChannelFormat.bloom }

/-- An environment in which the probe reports timestamp 5, the bloom bundle
fetch succeeds, and RSA-PSS/SHA-256 verification REJECTS the signature
(`verify` returns `some false`). -/
def envBadSig : UpdateEnv :=
  { now := 100, remoteTimestamp := fun _ => some 5,
    fetchRulesets := fun _ _ => none,
    fetchBloom := fun _ _ => some ([1], [2], [3]),
    verify := fun _ _ _ => some false,
    gunzipToString := fun _ => none, jsonTimestamp := fun _ => none,
    parseBloomMeta := fun _ => none, sha256 := fun b => b }

/-- Storage before the check: `uc-stored-timestamp: b` is 3 and
`rulesets: b` is `"old"`. -/
def storageBadSig : Storage :=
  { ints := [("uc-stored-timestamp: b", 3)],
    strings := [("rulesets: b", "old")], bools := [], bytesKV := [] }

/-- C1 evaluated at the failing input: for the Bloom-format channel the
signature verdict is `false`, yet after `Updater::perform_check` the key
`uc-stored-timestamp: b` has moved from 3 to the new remote timestamp 5
(because `verify_and_store_new_bloom` falls through to `Ok(())` on a negative
verdict instead of returning an error as its rulesets counterpart does).
`rulesets: b` is untouched on this path.  This contradicts the claim (and the
spec's explicit property) that a signature verification failure leaves
`uc-stored-timestamp: <ch>` unchanged for channels of both formats. -/
theorem bloom_bad_signature_advances_stored_timestamp :
    envBadSig.verify ucBloomBug [2] [1] = some false ∧
    storageBadSig.getInt "uc-stored-timestamp: b" = some 3 ∧
    (perform_check envBadSig [ucBloomBug] none (fun _ => none)
        ⟨storageBadSig, [], []⟩).map (fun s => s.storage.getInt "uc-stored-timestamp: b") =
      some (some 5) ∧
    (perform_check envBadSig [ucBloomBug] none (fun _ => none)
        ⟨storageBadSig, [], []⟩).map (fun s => s.storage.getString "rulesets: b") =
      some (some "old") := by
  refine ⟨rfl, rfl, ?_, ?_⟩ <;> rfl

/-! ## C8: default rulesets are ingested iff no loaded channel replaces them -/

theorem foldl_if_or_any {α : Type} (l : List α) (f : α → Bool) (b : Bool) :
    l.foldl (fun acc x => if f x then true else acc) b = (b || l.any f) := by
  induction l generalizing b with
  | nil => simp
  | cons x xs ih =>
    simp only [List.foldl_cons, List.any_cons, ih]
    cases hfx : f x <;> simp

/-- C8: during the in-memory rebuild of `Updater::apply_stored_rulesets`, the
statically bundled default rulesets are ingested if and only if no
successfully loaded ruleset-format channel has `replaces_default_rulesets`
set: the rebuilt index is exactly the fold of the loaded channel bundles,
followed by one more ingestion of the parsed defaults exactly when no loaded
tuple carries the flag (and defaults exist). -/
theorem defaults_ingested_iff_no_replacement (parseJson : String → Option Json)
    (ucs : List UpdateChannel) (defaults : Option String) (st : Storage)
    (tuples : List (Json × Option String × Bool))
    (h : ingestedTuples parseJson ucs st = some tuples) :
    applyStoredRuleSets parseJson ucs defaults st =
      (if tuples.any (fun rt => rt.2.2) then some (channelIngest tuples)
       else
         match defaults with
         | none => some (channelIngest tuples)
         | some d =>
             (parseJson d).map
               (fun v => addAllFromSerdeValue (channelIngest tuples) v
                 ENABLE_MIXED_RULESETS RULE_ACTIVE_STATES none)) := by
  unfold applyStoredRuleSets
  rw [h]
  simp only [foldl_if_or_any, Bool.false_or]
  cases hany : tuples.any (fun rt => rt.2.2) with
  | true =>
    rw [if_neg (by simp : ¬ ((true : Bool) = false ∧ defaults.isSome = true))]
    simp
  | false =>
    simp only [if_neg (by simp : ¬ (false : Bool) = true)]
    cases defaults with
    | none => simp
    | some d =>
      simp only [Option.isSome_some, and_true, if_pos rfl]
      cases parseJson d <;> simp

/-- One replacing ruleset channel whose stored bundle loads successfully, for
the C8 witness: the defaults are present but must not be ingested. -/
def ucReplLoaded : UpdateChannel :=
  { name := "c", scope := none, replaces_default_rulesets := true,
    format := UpdateChannelFormat.rulesets }

/-- The parsed form of the stored bundle: an object with a `rulesets` array
containing one ruleset for target `chan.example`. -/
def storedBundleJson : Json :=
  Json.jobj [("timestamp", Json.jnum 5),
             ("rulesets", Json.jarr [Json.jobj
               [("name", Json.jstr "chan-rule"),
                ("target", Json.jarr [Json.jstr "chan.example"]),
                ("rule", Json.jarr [Json.jobj
                  [("from", Json.jstr "^http:"), ("to", Json.jstr "https:")]])]])]

/-- The parsed form of the bundled defaults (never ingested in the witness). -/
def defaultsJson : Json :=
  Json.jarr [Json.jobj
    [("name", Json.jstr "default-rule"),
     ("target", Json.jarr [Json.jstr "default.example"]),
     ("rule", Json.jarr [Json.jobj
       [("from", Json.jstr "^http:"), ("to", Json.jstr "https:")]])]]

/-- A parser oracle resolving the two strings the witness stores. -/
def parseJsonW : String → Option Json := fun s =>
  if s = "stored-bundle" then some storedBundleJson
  else if s = "defaults" then some defaultsJson
  else none

def storageC8 : Storage :=
  { ints := [], strings := [("rulesets: c", "stored-bundle")], bools := [], bytesKV := [] }

theorem defaults_ingested_iff_no_replacement_witness :
    ingestedTuples parseJsonW [ucReplLoaded] storageC8 =
      some [(Json.jarr [Json.jobj
        [("name", Json.jstr "chan-rule"),
         ("target", Json.jarr [Json.jstr "chan.example"]),
         ("rule", Json.jarr [Json.jobj
           [("from", Json.jstr "^http:"), ("to", Json.jstr "https:")]])]], none, true)] ∧
    applyStoredRuleSets parseJsonW [ucReplLoaded] (some "defaults") storageC8 =
      some (channelIngest [(Json.jarr [Json.jobj
        [("name", Json.jstr "chan-rule"),
         ("target", Json.jarr [Json.jstr "chan.example"]),
         ("rule", Json.jarr [Json.jobj
           [("from", Json.jstr "^http:"), ("to", Json.jstr "https:")]])]], none, true)]) := by
  constructor
  · rfl
  · rw [defaults_ingested_iff_no_replacement parseJsonW [ucReplLoaded] (some "defaults")
      storageC8 _ rfl]
    rfl

/-! ## Lemmas about the rewriter -/

theorem strData_append (x y : String) : (x ++ y).data = x.data ++ y.data := rfl

theorem startsList_append_self (l m : List Char) : startsList l (l ++ m) = true := by
  induction l with
  | nil => simp [startsList]
  | cons a as ih => simp [startsList, ih]

theorem strContainsSub_of_parts (s sub : String) (pre post : List Char)
    (h : s.data = pre ++ sub.data ++ post) : strContainsSub s sub = true := by
  unfold strContainsSub
  rw [List.any_eq_true]
  refine ⟨pre.length, ?_, ?_⟩
  · rw [List.mem_range]
    have hl : s.data.length = pre.length + sub.data.length + post.length := by
      rw [h]; simp [List.length_append]; omega
    omega
  · rw [h, List.append_assoc, List.drop_left]
    exact startsList_append_self sub.data post

theorem asStr_contains_userinfo (u : Url) (hcr : ¬ (u.username = "" ∧ u.password = none))
    (hh : u.host.isSome = true) :
    strContainsSub u.asStr u.userinfo = true := by
  obtain ⟨h0, hval⟩ := Option.isSome_iff_exists.mp hh
  unfold Url.asStr
  rw [hval]
  rw [if_neg hcr]
  exact strContainsSub_of_parts _ _ (u.scheme ++ "://").data ("@" ++ h0 ++ u.tail).data
    (by simp only [strData_append, List.append_assoc])

theorem record_history_fst (st : RewriterState) (u : Url) (a : RewriteAction) :
    (record_history st u a).1 = a ∨
    (record_history st u a).1 = RewriteAction.RedirectLoopWarning := by
  unfold record_history
  split
  · right; rfl
  · left; rfl

theorem record_history_snd (st : RewriterState) (u : Url) (a : RewriteAction) :
    (record_history st u a).2 =
      { st with rewrite_history := (u.asStr, a) :: st.rewrite_history.take 14 } := by
  unfold record_history
  split <;> rfl

theorem record_history_fst_loop (st : RewriterState) (u : Url) (a : RewriteAction)
    (h : 8 ≤ (((u.asStr, a) :: st.rewrite_history.take 14).filter
      (fun p => p.1 = u.asStr ∧ p.2 = a)).length) :
    (record_history st u a).1 = RewriteAction.RedirectLoopWarning := by
  unfold record_history
  rw [if_pos h]

/-- The normal-path shape of `rewrite_url`: when globally enabled and the URL
parses, the call is exactly "compute the pending entry, record it". -/
theorem rewrite_url_eq (ctx : RewriteCtx) (st : RewriterState) (urlStr : String) (url0 : Url)
    (hen : ctx.globalEnabled.getD true = true) (hp : ctx.parse urlStr = some url0) :
    rewrite_url ctx st urlStr =
      (pendingEntry ctx url0).map (fun e =>
        (Except.ok (record_history st e.1 e.2.1).1,
         { (record_history st e.1 e.2.1).2 with
             rewrite_count := (record_history st e.1 e.2.1).2.rewrite_count + e.2.2 })) := by
  unfold rewrite_url
  rw [if_neg (by simp [hen]), hp]
  show (match pendingEntry ctx url0 with
        | none => none
        | some (u2, a, bump) =>
            some (Except.ok (record_history st u2 a).1,
              { (record_history st u2 a).2 with
                  rewrite_count := (record_history st u2 a).2.rewrite_count + bump })) = _
  cases hpe : pendingEntry ctx url0 with
  | none => rfl
  | some e =>
    obtain ⟨u2, a, b⟩ := e
    rfl

/-- When a rewrite whose serialisation begins with an insecure scheme was
produced under EASE mode, the pending entry is a `CancelRequest`. -/
theorem pendingEntry_insecure (ctx : RewriteCtx) (url0 : Url) (h0 : String) (u2 nu : Url)
    (hh : url0.host = some h0) (hra : rewriteAttempt ctx url0 h0 = some (u2, some nu))
    (hnw : ctx.httpNowhereOn.getD false = true) (hins : insecureStr nu.asStr = true) :
    pendingEntry ctx url0 = some (u2, RewriteAction.CancelRequest, 0) := by
  unfold pendingEntry
  rw [hh]
  show pendingEntryHost ctx url0 h0 = _
  unfold pendingEntryHost
  rw [hra]
  simp [hnw, hins]

/-- A pending `RewriteUrl` entry comes from a produced rewrite whose
serialisation, under EASE mode, is not insecure. -/
theorem pendingEntry_rewriteUrl (ctx : RewriteCtx) (url0 : Url) (u2 : Url) (s : String)
    (b : Nat) (h : pendingEntry ctx url0 = some (u2, RewriteAction.RewriteUrl s, b)) :
    ∃ h0 nu, url0.host = some h0 ∧ rewriteAttempt ctx url0 h0 = some (u2, some nu) ∧
      s = nu.asStr ∧
      (ctx.httpNowhereOn.getD false && insecureStr nu.asStr) = false := by
  unfold pendingEntry at h
  cases hh : url0.host with
  | none =>
    rw [hh] at h
    simp at h
  | some h0 =>
    rw [hh] at h
    have h' : pendingEntryHost ctx url0 h0 = some (u2, RewriteAction.RewriteUrl s, b) := h
    unfold pendingEntryHost at h'
    cases hra : rewriteAttempt ctx url0 h0 with
    | none =>
      simp only [hra] at h'
      exact Option.noConfusion h'
    | some p =>
      obtain ⟨url2, newUrl2⟩ := p
      simp only [hra] at h'
      split at h'
      · simp at h'
      · split at h'
        · simp at h'
        · rename_i hc1 hc2
          cases hnu : newUrl2 with
          | none => rw [hnu] at h'; simp at h'
          | some nu =>
            rw [hnu] at h'
            simp only [Option.some.injEq, Prod.mk.injEq] at h'
            obtain ⟨he1, he2, he3⟩ := h'
            rw [hnu] at hc2
            refine ⟨h0, nu, rfl, ?_, ?_, ?_⟩
            · rw [hnu, he1] at hra
              exact hra
            · exact (RewriteAction.RewriteUrl.inj he2).symm
            · rw [Bool.not_eq_true] at hc2
              exact hc2

theorem usingCreds_true (url0 : Url)
    (h : url0.username ≠ "" ∨ url0.password.isSome = true) :
    (!(url0.username = "") || url0.password.isSome) = true := by
  cases h with
  | inl h1 => simp [h1]
  | inr h2 => simp [h2]

/-- For a URL carrying userinfo, a produced rewrite has the original
username and password restored into it and still has a host. -/
theorem rewriteAttempt_some_creds (ctx : RewriteCtx) (url0 : Url) (h0 : String)
    (u2 nu : Url)
    (hcr : (!(url0.username = "") || url0.password.isSome) = true)
    (hra : rewriteAttempt ctx url0 h0 = some (u2, some nu)) :
    nu.username = url0.username ∧ nu.password = url0.password ∧ nu.host.isSome = true := by
  unfold rewriteAttempt at hra
  simp only [hcr, if_true] at hra
  cases hcn : computeNewUrl ctx (hostnameOf h0)
      (Url.asStr { url0 with username := "", password := none }) with
  | none =>
    simp only [hcn] at hra
    exact Option.noConfusion hra
  | some newUrl =>
    simp only [hcn] at hra
    cases newUrl with
    | none =>
      cases hsc : Url.setCreds { url0 with username := "", password := none }
          url0.username url0.password with
      | none =>
        simp only [hsc] at hra
        exact Option.noConfusion hra
      | some u2' =>
        simp only [hsc] at hra
        simp at hra
    | some nu0 =>
      cases hsc : nu0.setCreds url0.username url0.password with
      | none =>
        simp only [hsc] at hra
        exact Option.noConfusion hra
      | some nu2 =>
        simp only [hsc, Option.some.injEq, Prod.mk.injEq] at hra
        obtain ⟨-, h2⟩ := hra
        unfold Url.setCreds at hsc
        cases hh0 : nu0.host with
        | none =>
          rw [hh0] at hsc
          exact Option.noConfusion hsc
        | some hostv =>
          rw [hh0] at hsc
          have hnu2 := Option.some.inj hsc
          have hnu : nu = nu2 := h2.symm
          rw [hnu, ← hnu2]
          exact ⟨rfl, rfl, rfl⟩

/-- For a URL carrying userinfo, when no rewrite is produced the local `url`
value passed to `record_history` is the original URL, credentials intact. -/
theorem rewriteAttempt_none_creds (ctx : RewriteCtx) (url0 : Url) (h0 : String)
    (u2 : Url)
    (hcr : (!(url0.username = "") || url0.password.isSome) = true)
    (hra : rewriteAttempt ctx url0 h0 = some (u2, none)) :
    u2 = url0 := by
  unfold rewriteAttempt at hra
  simp only [hcr, if_true] at hra
  cases hcn : computeNewUrl ctx (hostnameOf h0)
      (Url.asStr { url0 with username := "", password := none }) with
  | none =>
    simp only [hcn] at hra
    exact Option.noConfusion hra
  | some newUrl =>
    simp only [hcn] at hra
    cases newUrl with
    | none =>
      cases hsc : Url.setCreds { url0 with username := "", password := none }
          url0.username url0.password with
      | none =>
        simp only [hsc] at hra
        exact Option.noConfusion hra
      | some u2' =>
        simp only [hsc, Option.some.injEq, Prod.mk.injEq] at hra
        obtain ⟨h1, -⟩ := hra
        unfold Url.setCreds at hsc
        cases hh0 : url0.host with
        | none =>
          simp only [hh0] at hsc
          exact Option.noConfusion hsc
        | some v =>
          simp only [hh0] at hsc
          have h2 := Option.some.inj hsc
          obtain ⟨sc, un, pw, ho, tl⟩ := url0
          have hho : ho = some v := hh0
          subst hho
          rw [← h1, ← h2]
    | some nu0 =>
      cases hsc : nu0.setCreds url0.username url0.password with
      | none =>
        simp only [hsc] at hra
        exact Option.noConfusion hra
      | some nu2 =>
        simp only [hsc] at hra
        simp at hra

/-! ## C2: insecure rewrites under EASE mode -/

/-- C2 amended: under EASE mode, when the call produced a rewritten URL whose
serialisation begins with `http:` or `ftp:`, `rewrite_url` returns
`CancelRequest` — or `RedirectLoopWarning` when the redirect-loop detector
upgrades that cancel — and it never returns `RewriteUrl` with an insecure
result. -/
theorem ease_insecure_result_cancels :
    (∀ (ctx : RewriteCtx) (st : RewriterState) (urlStr : String) (url0 : Url) (h0 : String)
        (u2 nu : Url) (res : Except Unit RewriteAction) (st' : RewriterState),
      ctx.globalEnabled.getD true = true →
      ctx.httpNowhereOn.getD false = true →
      ctx.parse urlStr = some url0 →
      url0.host = some h0 →
      rewriteAttempt ctx url0 h0 = some (u2, some nu) →
      insecureStr nu.asStr = true →
      rewrite_url ctx st urlStr = some (res, st') →
      (res = Except.ok RewriteAction.CancelRequest ∨
       res = Except.ok RewriteAction.RedirectLoopWarning))
    ∧ (∀ (ctx : RewriteCtx) (st : RewriterState) (urlStr s : String) (st' : RewriterState),
      ctx.httpNowhereOn.getD false = true →
      rewrite_url ctx st urlStr = some (Except.ok (RewriteAction.RewriteUrl s), st') →
      insecureStr s = false) := by
  constructor
  · intro ctx st urlStr url0 h0 u2 nu res st' hen hnw hp hh hra hins hrw
    rw [rewrite_url_eq ctx st urlStr url0 hen hp,
      pendingEntry_insecure ctx url0 h0 u2 nu hh hra hnw hins] at hrw
    have hres : Except.ok (record_history st u2 RewriteAction.CancelRequest).1 = res :=
      congrArg Prod.fst (Option.some.inj hrw)
    cases record_history_fst st u2 RewriteAction.CancelRequest with
    | inl hcl => left; rw [← hres, hcl]
    | inr hcl => right; rw [← hres, hcl]
  · intro ctx st urlStr s st' hnw hrw
    cases hen : ctx.globalEnabled.getD true with
    | false =>
      unfold rewrite_url at hrw
      rw [if_pos hen] at hrw
      simp at hrw
    | true =>
      cases hp : ctx.parse urlStr with
      | none =>
        unfold rewrite_url at hrw
        rw [if_neg (by simp [hen]), hp] at hrw
        simp at hrw
      | some url0 =>
        rw [rewrite_url_eq ctx st urlStr url0 hen hp] at hrw
        cases hpe : pendingEntry ctx url0 with
        | none =>
          rw [hpe] at hrw
          exact Option.noConfusion hrw
        | some e =>
          obtain ⟨u2, a, b⟩ := e
          rw [hpe] at hrw
          have hres : Except.ok (record_history st u2 a).1 =
              (Except.ok (RewriteAction.RewriteUrl s) : Except Unit RewriteAction) :=
            congrArg Prod.fst (Option.some.inj hrw)
          have ha : a = RewriteAction.RewriteUrl s := by
            cases record_history_fst st u2 a with
            | inl hcl =>
              rw [hcl] at hres
              exact (Except.ok.inj hres)
            | inr hcl =>
              rw [hcl] at hres
              exact absurd (Except.ok.inj hres) (fun hq => RewriteAction.noConfusion hq)
          rw [ha] at hpe
          obtain ⟨hh0, nu, -, -, hs, hbool⟩ := pendingEntry_rewriteUrl ctx url0 u2 s b hpe
          rw [hs]
          rw [hnw] at hbool
          simpa using hbool

/-- The regex engine for the concrete rewriter scenarios: it performs the
canonical trivial upgrade and one downgrade rewrite used by the C2
counterexample, and matches nothing (consistent with the real engine on
every pattern/input pair these scenarios exercise). -/
def scenarioEngine : RegexEngine :=
  { isMatch := fun _ _ => false,
    replaceAll := fun pat s repl =>
      if pat = "^http:" ∧ repl = "https:" ∧ strStartsWith s "http:" then
        "https:" ++ String.mk (s.data.drop 5)
      else if pat = "^http://a\\.com/" ∧ s = "http://a.com/" then "http://b.com/"
      else s }

/-- The URL parser oracle for the concrete rewriter scenarios. -/
def scenarioParse : String → Option Url := fun s =>
  if s = "http://a.com/" then some ⟨"http", "", none, some "a.com", "/"⟩
  else if s = "http://b.com/" then some ⟨"http", "", none, some "b.com", "/"⟩
  else if s = "https://a.com/" then some ⟨"https", "", none, some "a.com", "/"⟩
  else if s = "http://u:pw@a.com/" then some ⟨"http", "u", some "pw", some "a.com", "/"⟩
  else none

/-- A ruleset that rewrites `http://a.com/` to the still-insecure
`http://b.com/`. -/
def insecureRS : RuleSet :=
  { name := "insecure", rules := [Rule.nonTrivial "^http://a\\.com/" "http://b.com/"],
    exclusions := none, cookierules := none, active := true,
    default_state := true, scope := none, note := none }

/-- EASE mode on, with the downgrade ruleset indexed under `a.com`. -/
def ctxInsecure : RewriteCtx :=
  { eng := scenarioEngine, parse := scenarioParse, globalEnabled := some true,
    httpNowhereOn := some true, rulesets := [("a.com", [insecureRS])] }

/-- A rewriter whose history already holds seven identical cancels. -/
def histSeven : RewriterState :=
  { rewrite_history := List.replicate 7 ("http://a.com/", RewriteAction.CancelRequest),
    rewrite_count := 0 }

/-- C2 counterexample: EASE mode is on and the call produces the insecure
rewrite `http://b.com/`, but with seven identical cancels already in the
ring buffer the 8th call returns `RedirectLoopWarning`, not
`CancelRequest` — the loop detector upgrades the cancel, so "the call
returns CancelRequest" is false as stated (the never-`RewriteUrl` half
survives, as the amended theorem shows). -/
theorem ease_insecure_upgraded_to_loop_warning :
    ctxInsecure.httpNowhereOn.getD false = true ∧
    (rewriteAttempt ctxInsecure ⟨"http", "", none, some "a.com", "/"⟩ "a.com").map
      (fun p => p.2.map Url.asStr) = some (some "http://b.com/") ∧
    insecureStr "http://b.com/" = true ∧
    rewrite_url ctxInsecure histSeven "http://a.com/" =
      some (Except.ok RewriteAction.RedirectLoopWarning,
        ⟨("http://a.com/", RewriteAction.CancelRequest) ::
          List.replicate 7 ("http://a.com/", RewriteAction.CancelRequest), 0⟩) := by
  exact ⟨rfl, rfl, rfl, rfl⟩

theorem ease_insecure_result_cancels_witness :
    insecureStr "http://b.com/" = true ∧
    rewrite_url ctxInsecure ⟨[], 0⟩ "http://a.com/" =
      some (Except.ok RewriteAction.CancelRequest,
        ⟨[("http://a.com/", RewriteAction.CancelRequest)], 0⟩) ∧
    (Except.ok RewriteAction.CancelRequest = Except.ok (ε := Unit) RewriteAction.CancelRequest ∨
     Except.ok RewriteAction.CancelRequest = Except.ok (ε := Unit) RewriteAction.RedirectLoopWarning) :=
  ⟨rfl, rfl,
   ease_insecure_result_cancels.1 ctxInsecure ⟨[], 0⟩ "http://a.com/"
     ⟨"http", "", none, some "a.com", "/"⟩ "a.com"
     ⟨"http", "", none, some "a.com", "/"⟩ ⟨"http", "", none, some "b.com", "/"⟩
     (Except.ok RewriteAction.CancelRequest)
     ⟨[("http://a.com/", RewriteAction.CancelRequest)], 0⟩
     rfl rfl rfl rfl rfl rfl rfl⟩

/-! ## C7: userinfo preservation -/

/-- C7: for a URL with userinfo (non-empty username or present password), a
`RewriteUrl` result contains the original userinfo byte-for-byte, and when no
rewrite is produced the URL handed to the history recorder is the original
URL with its credentials restored unchanged. -/
theorem userinfo_preserved :
    (∀ (ctx : RewriteCtx) (st : RewriterState) (urlStr new : String) (url0 : Url)
        (st' : RewriterState),
      ctx.parse urlStr = some url0 →
      (url0.username ≠ "" ∨ url0.password.isSome = true) →
      rewrite_url ctx st urlStr = some (Except.ok (RewriteAction.RewriteUrl new), st') →
      strContainsSub new url0.userinfo = true)
    ∧ (∀ (ctx : RewriteCtx) (url0 : Url) (h0 : String) (u2 : Url),
      (url0.username ≠ "" ∨ url0.password.isSome = true) →
      rewriteAttempt ctx url0 h0 = some (u2, none) →
      u2 = url0) := by
  constructor
  · intro ctx st urlStr new url0 st' hp hcreds hrw
    cases hen : ctx.globalEnabled.getD true with
    | false =>
      unfold rewrite_url at hrw
      rw [if_pos hen] at hrw
      simp at hrw
    | true =>
      rw [rewrite_url_eq ctx st urlStr url0 hen hp] at hrw
      cases hpe : pendingEntry ctx url0 with
      | none =>
        rw [hpe] at hrw
        exact Option.noConfusion hrw
      | some e =>
        obtain ⟨u2, a, b⟩ := e
        rw [hpe] at hrw
        have hres : Except.ok (record_history st u2 a).1 =
            (Except.ok (RewriteAction.RewriteUrl new) : Except Unit RewriteAction) :=
          congrArg Prod.fst (Option.some.inj hrw)
        have ha : a = RewriteAction.RewriteUrl new := by
          cases record_history_fst st u2 a with
          | inl hcl =>
            rw [hcl] at hres
            exact (Except.ok.inj hres)
          | inr hcl =>
            rw [hcl] at hres
            exact absurd (Except.ok.inj hres) (fun hq => RewriteAction.noConfusion hq)
        rw [ha] at hpe
        obtain ⟨h0, nu, -, hra, hs, -⟩ := pendingEntry_rewriteUrl ctx url0 u2 new b hpe
        obtain ⟨hun, hpw, hhost⟩ :=
          rewriteAttempt_some_creds ctx url0 h0 u2 nu (usingCreds_true url0 hcreds) hra
        have huser : nu.userinfo = url0.userinfo := by
          unfold Url.userinfo
          rw [hun, hpw]
        rw [hs, ← huser]
        refine asStr_contains_userinfo nu ?_ hhost
        intro ⟨hu1, hu2⟩
        cases hcreds with
        | inl hc => exact hc (hun ▸ hu1)
        | inr hc =>
          rw [hpw] at hu2
          rw [hu2] at hc
          cases hc
  · intro ctx url0 h0 u2 hcreds hra
    exact rewriteAttempt_none_creds ctx url0 h0 u2 (usingCreds_true url0 hcreds) hra

/-- A ruleset with the canonical trivial upgrade rule, for the C7 witness. -/
def trivialActiveRS : RuleSet :=
  { name := "triv", rules := [Rule.trivial], exclusions := none,
    cookierules := none, active := true, default_state := true,
    scope := none, note := none }

/-- Engine/parser scenario with a credentialed URL and the trivial ruleset
indexed under `a.com`, EASE mode off. -/
def ctxCreds : RewriteCtx :=
  { eng := scenarioEngine, parse := scenarioParse, globalEnabled := some true,
    httpNowhereOn := some false, rulesets := [("a.com", [trivialActiveRS])] }

theorem userinfo_preserved_witness :
    scenarioParse "http://u:pw@a.com/" = some ⟨"http", "u", some "pw", some "a.com", "/"⟩ ∧
    rewrite_url ctxCreds ⟨[], 0⟩ "http://u:pw@a.com/" =
      some (Except.ok (RewriteAction.RewriteUrl "https://u:pw@a.com/"),
        ⟨[("http://a.com/", RewriteAction.RewriteUrl "https://u:pw@a.com/")], 1⟩) ∧
    strContainsSub "https://u:pw@a.com/"
      (Url.userinfo ⟨"http", "u", some "pw", some "a.com", "/"⟩) = true :=
  ⟨rfl, rfl,
   userinfo_preserved.1 ctxCreds ⟨[], 0⟩ "http://u:pw@a.com/" "https://u:pw@a.com/"
     ⟨"http", "u", some "pw", some "a.com", "/"⟩
     ⟨[("http://a.com/", RewriteAction.RewriteUrl "https://u:pw@a.com/")], 1⟩
     rfl (Or.inl (by decide)) rfl⟩

/-! ## C6: redirect-loop detection -/

theorem filter_replicate_self (n : Nat) (k : String) (a : RewriteAction) :
    (List.replicate n (k, a)).filter (fun p => p.1 = k ∧ p.2 = a) =
      List.replicate n (k, a) := by
  induction n with
  | zero => rfl
  | succ n ih => simp [List.replicate_succ, List.filter_cons, ih]

/-- Consecutive identical calls from a small history of identical entries
keep appending the same entry. -/
theorem iterCallN_replicate (ctx : RewriteCtx) (urlStr : String) (url0 u2 : Url)
    (a0 : RewriteAction) (b : Nat)
    (hen : ctx.globalEnabled.getD true = true) (hp : ctx.parse urlStr = some url0)
    (hpe : pendingEntry ctx url0 = some (u2, a0, b)) :
    ∀ (n m : Nat), m + n ≤ 14 → ∀ st : RewriterState,
      st.rewrite_history = List.replicate m (u2.asStr, a0) →
      ∃ st', iterCallN ctx urlStr n st = some st' ∧
        st'.rewrite_history = List.replicate (m + n) (u2.asStr, a0) := by
  intro n
  induction n with
  | zero =>
    intro m hmn st hst
    exact ⟨st, rfl, by simpa using hst⟩
  | succ n ih =>
    intro m hmn st hst
    have hone := rewrite_url_eq ctx st urlStr url0 hen hp
    rw [hpe] at hone
    have hic : iterCall ctx urlStr st =
        some { (record_history st u2 a0).2 with
          rewrite_count := (record_history st u2 a0).2.rewrite_count + b } := by
      unfold iterCall
      rw [hone]
      rfl
    have hh1 : ({ (record_history st u2 a0).2 with
        rewrite_count := (record_history st u2 a0).2.rewrite_count + b }).rewrite_history =
        List.replicate (m + 1) (u2.asStr, a0) := by
      show (record_history st u2 a0).2.rewrite_history = _
      rw [record_history_snd]
      show (u2.asStr, a0) :: st.rewrite_history.take 14 = _
      rw [hst, List.take_replicate, Nat.min_eq_right (by omega)]
      exact (List.replicate_succ _ _).symm
    obtain ⟨st', hiter, hhist'⟩ := ih (m + 1) (by omega) _ hh1
    refine ⟨st', ?_, ?_⟩
    · show iterCallN ctx urlStr (n + 1) st = some st'
      unfold iterCallN
      rw [hic]
      exact hiter
    · rw [hhist']
      congr 1
      omega

/-- C6: when the entry just recorded by a `rewrite_url` call occurs at least
8 times among the (at most 15) entries of the updated ring buffer, the call
returns `RedirectLoopWarning`; in particular, from an empty history, eight
consecutive calls on the same URL (producing the same recorded action) yield
`RedirectLoopWarning` on the eighth. -/
theorem redirect_loop_warning_on_8_of_15 :
    (∀ (ctx : RewriteCtx) (st : RewriterState) (urlStr : String) (url0 : Url)
        (res : Except Unit RewriteAction) (st' : RewriterState) (k : String)
        (a : RewriteAction) (rest : List (String × RewriteAction)),
      ctx.globalEnabled.getD true = true →
      ctx.parse urlStr = some url0 →
      rewrite_url ctx st urlStr = some (res, st') →
      st'.rewrite_history = (k, a) :: rest →
      8 ≤ (st'.rewrite_history.filter (fun p => p.1 = k ∧ p.2 = a)).length →
      res = Except.ok RewriteAction.RedirectLoopWarning)
    ∧ (∀ (ctx : RewriteCtx) (st0 : RewriterState) (urlStr : String) (url0 : Url)
        (r0 : Except Unit RewriteAction × RewriterState),
      ctx.globalEnabled.getD true = true →
      ctx.parse urlStr = some url0 →
      st0.rewrite_history = [] →
      rewrite_url ctx st0 urlStr = some r0 →
      ∃ st7, iterCallN ctx urlStr 7 st0 = some st7 ∧
        (rewrite_url ctx st7 urlStr).map Prod.fst =
          some (Except.ok RewriteAction.RedirectLoopWarning)) := by
  constructor
  · intro ctx st urlStr url0 res st' k a rest hen hp hrw hhist hcount
    rw [rewrite_url_eq ctx st urlStr url0 hen hp] at hrw
    cases hpe : pendingEntry ctx url0 with
    | none =>
      rw [hpe] at hrw
      exact Option.noConfusion hrw
    | some e =>
      obtain ⟨u2, a0, b⟩ := e
      rw [hpe] at hrw
      have hres : Except.ok (record_history st u2 a0).1 = res :=
        congrArg Prod.fst (Option.some.inj hrw)
      have hsnd : ({ (record_history st u2 a0).2 with
          rewrite_count := (record_history st u2 a0).2.rewrite_count + b }) = st' :=
        congrArg Prod.snd (Option.some.inj hrw)
      have hhist2 : st'.rewrite_history = (u2.asStr, a0) :: st.rewrite_history.take 14 := by
        rw [← hsnd]
        show (record_history st u2 a0).2.rewrite_history = _
        rw [record_history_snd]
      rw [hhist2] at hhist
      have hk : u2.asStr = k := congrArg Prod.fst (List.head_eq_of_cons_eq hhist)
      have ha : a0 = a := congrArg Prod.snd (List.head_eq_of_cons_eq hhist)
      subst hk
      subst ha
      rw [hhist2] at hcount
      rw [← hres, record_history_fst_loop st u2 a0 hcount]
  · intro ctx st0 urlStr url0 r0 hen hp hhist0 hr0
    have hrw0 := rewrite_url_eq ctx st0 urlStr url0 hen hp
    cases hpe : pendingEntry ctx url0 with
    | none =>
      rw [hpe] at hrw0
      rw [hrw0] at hr0
      exact Option.noConfusion hr0
    | some e =>
      obtain ⟨u2, a0, b⟩ := e
      obtain ⟨st7, hiter, hh7⟩ := iterCallN_replicate ctx urlStr url0 u2 a0 b hen hp hpe 7 0
        (by omega) st0 (by simpa using hhist0)
      refine ⟨st7, hiter, ?_⟩
      have hone := rewrite_url_eq ctx st7 urlStr url0 hen hp
      rw [hpe] at hone
      rw [hone]
      have hloop : (record_history st7 u2 a0).1 = RewriteAction.RedirectLoopWarning := by
        apply record_history_fst_loop
        rw [hh7]
        simp only [Nat.zero_add]
        rw [List.take_replicate, Nat.min_eq_right (by omega)]
        rw [show ((u2.asStr, a0) :: List.replicate 7 (u2.asStr, a0)) =
          List.replicate 8 (u2.asStr, a0) from (List.replicate_succ _ _).symm]
        rw [filter_replicate_self]
        simp
      show some (Except.ok (record_history st7 u2 a0).1) = _
      rw [hloop]

/-- EASE off, empty index: every call on `http://b.com/` records a `NoOp`,
and the eighth returns `RedirectLoopWarning`. -/
def ctxLoop : RewriteCtx :=
  { eng := scenarioEngine, parse := scenarioParse, globalEnabled := some true,
    httpNowhereOn := some false, rulesets := [] }

theorem redirect_loop_warning_on_8_of_15_witness :
    rewrite_url ctxLoop ⟨[], 0⟩ "http://b.com/" =
      some (Except.ok RewriteAction.NoOp,
        ⟨[("http://b.com/", RewriteAction.NoOp)], 0⟩) ∧
    ∃ st7, iterCallN ctxLoop "http://b.com/" 7 ⟨[], 0⟩ = some st7 ∧
      (rewrite_url ctxLoop st7 "http://b.com/").map Prod.fst =
        some (Except.ok RewriteAction.RedirectLoopWarning) :=
  ⟨rfl,
   redirect_loop_warning_on_8_of_15.2 ctxLoop ⟨[], 0⟩ "http://b.com/"
     ⟨"http", "", none, some "b.com", "/"⟩
     (Except.ok RewriteAction.NoOp, ⟨[("http://b.com/", RewriteAction.NoOp)], 0⟩)
     rfl rfl rfl rfl⟩

end HttpsEverywhere
